import Mathlib
/-!
Verification development for the SnapEvent repository (event-flyer scanner).

The TypeScript sources are shallowly embedded in Lean:
  * strings are modelled as `List Char`;
  * the extraction-result normalizer (`src/unnamed/part_001`,
    `extractEventDetailsDirect` / `mapToEventDetails`) is embedded together
    with a model of `JSON.parse`;
  * the DateTime codec and calendar-link encoder (`src/unnamed/part_002`)
    are embedded over an integer millisecond timeline with an explicit,
    constant time-zone offset modelling `Date.prototype.getTimezoneOffset`;
  * the review-queue state machine (`src/App.tsx` together with
    `src/components/EventForm.tsx`) is embedded as a state record with
    explicit transition functions.

Modelling conventions:
  * JavaScript `Date` parsing is modelled for ISO-8601 shaped strings
    (`YYYY-MM-DD`, optionally `THH:mm[:ss[.sss]]`, optionally a trailing
    `Z`) with years 1..9998, months/days/times validated; date-only forms
    are interpreted as UTC and date-time forms without `Z` as local time,
    following ECMA-262.  Strings outside this fragment count as
    unparseable.
  * the viewer's time zone is a constant minute offset `tz` (the value of
    `getTimezoneOffset()`), passed explicitly to every function that the
    source code lets touch local time.
-/

namespace SnapEvent
set_option maxRecDepth 4000
set_option maxHeartbeats 1600000
set_option linter.unusedVariables false
set_option linter.unusedTactic false

/-- Convert a Lean string literal to the `List Char` representation used
throughout this development. -/
def S (s : String) : List Char := s.toList

/-! ## JavaScript string helpers (indexOf / lastIndexOf / substring) -/

/-- Index of the first occurrence of `c` in `s` (JS `String.prototype.indexOf`
restricted to single-character needles); `none` models the JS result `-1`. -/
def firstIdx (s : List Char) (c : Char) : Option Nat :=
  s.findIdx? (· = c)

/-- Index of the last occurrence of `c` in `s` (JS `lastIndexOf`); `none`
models the JS result `-1`. -/
def lastIdx (s : List Char) (c : Char) : Option Nat :=
  match (s.reverse).findIdx? (· = c) with
  | none => none
  | some k => some (s.length - 1 - k)

/-- JS `String.prototype.substring s a b`: clamps both indices to the string
length and swaps them when `a > b`. -/
def jsSubstring (s : List Char) (a b : Nat) : List Char :=
  let a' := min a s.length
  let b' := min b s.length
  ((s.drop (min a' b')).take (max a' b' - min a' b'))

/-- Does `pat` occur as a contiguous substring of `s`
(JS `String.prototype.includes`)? -/
def hasSubstr (s pat : List Char) : Bool :=
  match s with
  | [] => decide (pat = [])
  | _ :: rest => pat.isPrefixOf s || hasSubstr rest pat

/-- Replace every occurrence of the non-overlapping pattern `pat` by `rep`,
scanning left to right (JS `String.prototype.replace` with a `/.../g`
string-literal regex).  `fuel` bounds recursion; it is always called with
`s.length + 1`, which suffices because each step consumes at least one
character when `pat ≠ []`. -/
def replaceAllAux (pat rep : List Char) : Nat → List Char → List Char
  | 0, s => s
  | _ + 1, [] => []
  | fuel + 1, c :: rest =>
      if pat ≠ [] ∧ pat.isPrefixOf (c :: rest) then
        rep ++ replaceAllAux pat rep fuel ((c :: rest).drop pat.length)
      else
        c :: replaceAllAux pat rep fuel rest

/-- Replace all occurrences of `pat` in `s` by `rep`. -/
def replaceAll (s pat rep : List Char) : List Char :=
  replaceAllAux pat rep (s.length + 1) s

/-! ## JSON value model and a model of `JSON.parse`

`Json` models the values `JSON.parse` can produce.  Numbers are kept as
their syntactic parts (sign, integer part, fraction digits, exponent) —
enough to decide JavaScript truthiness exactly, which is all the
normalizer inspects. -/

inductive Json where
  | null : Json
  | bool (b : Bool) : Json
  | num (neg : Bool) (ip : Nat) (fr : List Nat) (ex : Int) : Json
  | str (s : List Char) : Json
  | arr (xs : List Json) : Json
  | obj (fs : List (List Char × Json)) : Json

/-- JSON whitespace characters accepted by `JSON.parse`. -/
def isJsonWs (c : Char) : Bool :=
  c = ' ' || c = '\t' || c = '\n' || c = '\r'

/-- Drop leading JSON whitespace. -/
def skipWs (s : List Char) : List Char :=
  s.dropWhile isJsonWs

/-- Decimal digit test. -/
def isDigit (c : Char) : Bool :=
  decide ('0' ≤ c) && decide (c ≤ '9')

/-- Numeric value of a decimal digit character. -/
def digitVal (c : Char) : Nat := c.toNat - 48

/-- Numeric value of a hexadecimal digit character (used for `\uXXXX`). -/
def hexVal (c : Char) : Option Nat :=
  if isDigit c then some (digitVal c)
  else if decide ('a' ≤ c) && decide (c ≤ 'f') then some (c.toNat - 87)
  else if decide ('A' ≤ c) && decide (c ≤ 'F') then some (c.toNat - 55)
  else none

/-- Fold a digit list into a natural number (most significant first). -/
def digitsToNat (ds : List Char) : Nat :=
  ds.foldl (fun acc c => 10 * acc + digitVal c) 0

/-- Parse the body of a JSON string literal (after the opening quote),
returning the decoded characters and the remainder after the closing
quote.  Escapes follow the JSON grammar; a `\uXXXX` escape becomes the
corresponding scalar value via `Char.ofNat`. -/
def parseStrBody : Nat → List Char → Option (List Char × List Char)
  | 0, _ => none
  | _ + 1, [] => none
  | fuel + 1, c :: rest =>
      if c = '"' then some ([], rest)
      else if c = '\\' then
        match rest with
        | [] => none
        | e :: rest2 =>
            let cont (ch : Char) (r : List Char) : Option (List Char × List Char) :=
              match parseStrBody fuel r with
              | none => none
              | some (cs, r2) => some (ch :: cs, r2)
            if e = '"' then cont '"' rest2
            else if e = '\\' then cont '\\' rest2
            else if e = '/' then cont '/' rest2
            else if e = 'b' then cont (Char.ofNat 8) rest2
            else if e = 'f' then cont (Char.ofNat 12) rest2
            else if e = 'n' then cont '\n' rest2
            else if e = 'r' then cont '\r' rest2
            else if e = 't' then cont '\t' rest2
            else if e = 'u' then
              match rest2 with
              | h1 :: h2 :: h3 :: h4 :: rest3 =>
                  match hexVal h1, hexVal h2, hexVal h3, hexVal h4 with
                  | some a, some b, some c2, some d =>
                      cont (Char.ofNat (4096 * a + 256 * b + 16 * c2 + d)) rest3
                  | _, _, _, _ => none
              | _ => none
            else none
      else if c.toNat < 32 then none
      else
        match parseStrBody fuel rest with
        | none => none
        | some (cs, r2) => some (c :: cs, r2)

/-- Parse a JSON number starting at `s` (which must start with `-` or a
digit).  Follows the strict JSON number grammar (no leading zeros, at
least one digit in fraction and exponent). -/
def parseNum (s : List Char) : Option (Json × List Char) :=
  let (neg, s1) :=
    match s with
    | '-' :: r => (true, r)
    | _ => (false, s)
  let ipDigits := s1.takeWhile isDigit
  let s2 := s1.dropWhile isDigit
  if ipDigits = [] then none
  else if ipDigits.length > 1 ∧ ipDigits.headD '0' = '0' then none
  else
    let ip := digitsToNat ipDigits
    let (fr, s3) :=
      match s2 with
      | '.' :: r =>
          let fd := r.takeWhile isDigit
          (fd.map digitVal, r.dropWhile isDigit)
      | _ => (([] : List Nat), s2)
    if s2 ≠ s3 ∧ fr = [] then none
    else
      match s3 with
      | e :: r =>
          if e = 'e' ∨ e = 'E' then
            let (eneg, r1) :=
              match r with
              | '-' :: r2 => (true, r2)
              | '+' :: r2 => (false, r2)
              | _ => (false, r)
            let ed := r1.takeWhile isDigit
            if ed = [] then none
            else
              let ev : Int := if eneg then -(digitsToNat ed : Int) else (digitsToNat ed : Int)
              some (Json.num neg ip fr ev, r1.dropWhile isDigit)
          else some (Json.num neg ip fr 0, s3)
      | [] => some (Json.num neg ip fr 0, s3)

mutual

/-- Parse one JSON value at the head of `s` (leading whitespace already
skipped), returning the value and the unconsumed remainder. -/
def parseVal : Nat → List Char → Option (Json × List Char)
  | 0, _ => none
  | fuel + 1, s =>
      match s with
      | 'n' :: 'u' :: 'l' :: 'l' :: r => some (Json.null, r)
      | 't' :: 'r' :: 'u' :: 'e' :: r => some (Json.bool true, r)
      | 'f' :: 'a' :: 'l' :: 's' :: 'e' :: r => some (Json.bool false, r)
      | '"' :: r =>
          match parseStrBody (r.length + 1) r with
          | none => none
          | some (cs, r2) => some (Json.str cs, r2)
      | '[' :: r =>
          match skipWs r with
          | ']' :: r2 => some (Json.arr [], r2)
          | r1 =>
              match parseArrItems fuel r1 with
              | none => none
              | some (xs, r2) => some (Json.arr xs, r2)
      | '{' :: r =>
          match skipWs r with
          | '}' :: r2 => some (Json.obj [], r2)
          | r1 =>
              match parseObjItems fuel r1 with
              | none => none
              | some (fs, r2) => some (Json.obj fs, r2)
      | _ => parseNum s

/-- Parse the comma-separated items of a non-empty JSON array, up to and
including the closing bracket. -/
def parseArrItems : Nat → List Char → Option (List Json × List Char)
  | 0, _ => none
  | fuel + 1, s =>
      match parseVal fuel s with
      | none => none
      | some (v, r) =>
          match skipWs r with
          | ',' :: r2 =>
              match parseArrItems fuel (skipWs r2) with
              | none => none
              | some (xs, r3) => some (v :: xs, r3)
          | ']' :: r2 => some ([v], r2)
          | _ => none

/-- Parse the comma-separated members of a non-empty JSON object, up to and
including the closing brace. -/
def parseObjItems : Nat → List Char → Option (List (List Char × Json) × List Char)
  | 0, _ => none
  | fuel + 1, s =>
      match s with
      | '"' :: r =>
          match parseStrBody (r.length + 1) r with
          | none => none
          | some (k, r1) =>
              match skipWs r1 with
              | ':' :: r2 =>
                  match parseVal fuel (skipWs r2) with
                  | none => none
                  | some (v, r3) =>
                      match skipWs r3 with
                      | ',' :: r4 =>
                          match parseObjItems fuel (skipWs r4) with
                          | none => none
                          | some (fs, r5) => some ((k, v) :: fs, r5)
                      | '}' :: r4 => some ([(k, v)], r4)
                      | _ => none
              | _ => none
      | _ => none

end

/-- Model of `JSON.parse`: parse a complete JSON document, rejecting
trailing non-whitespace content. -/
def jsonParse (s : List Char) : Option Json :=
  match parseVal (s.length + 1) (skipWs s) with
  | none => none
  | some (v, rest) => if skipWs rest = [] then some v else none

/-! ## Extraction result normalizer (src/unnamed/part_001) -/

/-- JavaScript truthiness of a JSON value (`undefined` from a missing
property is modelled as `Json.null`; both are falsy).  A numeral is
truthy here exactly when it has a nonzero digit; the double-precision
underflow of astronomically small numerals (which JavaScript evaluates
to the falsy `0`) is outside the model. -/
def jsTruthy : Json → Bool
  | .null => false
  | .bool b => b
  | .num _ ip fr _ => decide (ip ≠ 0) || fr.any (· ≠ 0)
  | .str s => decide (s ≠ [])
  | .arr _ => true
  | .obj _ => true

/-- JavaScript `a || b`. -/
def jsOr (a b : Json) : Json := if jsTruthy a then a else b

/-- Whether a parsed value is JSON `null`. -/
def jsonIsNull : Json → Bool
  | .null => true
  | _ => false

/-- Property lookup `item[k]` on a non-null `JSON.parse` result: for an
object the last binding of `k` wins (as in `JSON.parse` duplicate-key
semantics); any other non-null receiver is boxed and has no such
property, so the read yields the falsy `undefined`, modelled as
`Json.null`. -/
def jsGetD (item : Json) (k : List Char) : Json :=
  match item with
  | .obj fs => (fs.foldl (fun acc f => if f.1 = k then some f.2 else acc) none).getD Json.null
  | _ => Json.null

/-- JavaScript property read `item[k]` on a `JSON.parse` result: reading
a property of `null` throws a `TypeError` (message abbreviated — the
engine appends the property name); every other receiver yields the
looked-up value. -/
def jsGet (item : Json) (k : List Char) : Except (List Char) Json :=
  match item with
  | .null => .error (S ("Cannot read properties of null"))
  | it => .ok (jsGetD it k)

/-- One normalized event candidate, with the raw JavaScript values of its
six fields (`EventDetails` in `types.ts`; values are whatever the parsed
JSON held, after `||`-defaulting). -/
structure JsEvent where
  title : Json
  location : Json
  description : Json
  startDateTime : Json
  endDateTime : Json
  recurrence : Json

/-- The six candidate fields, for field-indexed statements. -/
inductive Fld where
  | title | location | description | startDateTime | endDateTime | recurrence
deriving DecidableEq, Repr

/-- Project a field out of a candidate. -/
def fieldGet (e : JsEvent) : Fld → Json
  | .title => e.title
  | .location => e.location
  | .description => e.description
  | .startDateTime => e.startDateTime
  | .endDateTime => e.endDateTime
  | .recurrence => e.recurrence

/-- JSON key of a field. -/
def fieldKey : Fld → List Char
  | .title => S ("title")
  | .location => S ("location")
  | .description => S ("description")
  | .startDateTime => S ("startDateTime")
  | .endDateTime => S ("endDateTime")
  | .recurrence => S ("recurrence")

/-- The default substituted for a falsy field value
(`mapToEventDetails`, src/unnamed/part_001 lines 59-66). -/
def fieldDefault : Fld → Json
  | .title => Json.str (S ("Untitled Event"))
  | _ => Json.str []

/-- The candidate produced by the object literal inside
`mapToEventDetails` for a non-null element: each field read through
`jsGetD` and `||`-defaulted. -/
def mapItemD (item : Json) : JsEvent where
  title := jsOr (jsGetD item (fieldKey .title)) (fieldDefault .title)
  location := jsOr (jsGetD item (fieldKey .location)) (fieldDefault .location)
  description := jsOr (jsGetD item (fieldKey .description)) (fieldDefault .description)
  startDateTime := jsOr (jsGetD item (fieldKey .startDateTime)) (fieldDefault .startDateTime)
  endDateTime := jsOr (jsGetD item (fieldKey .endDateTime)) (fieldDefault .endDateTime)
  recurrence := jsOr (jsGetD item (fieldKey .recurrence)) (fieldDefault .recurrence)

/-- Map one parsed element to an event candidate (the object literal
inside `mapToEventDetails`): the six property reads evaluate in source
order, so a `null` element throws `TypeError` at the `title` read. -/
def mapItem (item : Json) : Except (List Char) JsEvent := do
  let t ← jsGet item (fieldKey .title)
  let l ← jsGet item (fieldKey .location)
  let d ← jsGet item (fieldKey .description)
  let sd ← jsGet item (fieldKey .startDateTime)
  let ed ← jsGet item (fieldKey .endDateTime)
  let r ← jsGet item (fieldKey .recurrence)
  pure { title := jsOr t (fieldDefault .title),
         location := jsOr l (fieldDefault .location),
         description := jsOr d (fieldDefault .description),
         startDateTime := jsOr sd (fieldDefault .startDateTime),
         endDateTime := jsOr ed (fieldDefault .endDateTime),
         recurrence := jsOr r (fieldDefault .recurrence) }

/-- `Array.isArray(data) ? data : [data]` (src/unnamed/part_001
line 57). -/
def eventsArray (data : Json) : List Json :=
  match data with
  | .arr xs => xs
  | j => [j]

/-- `dataArray.map(...)` over the fallible `mapItem`:
`Array.prototype.map` evaluates left to right and propagates the first
thrown exception. -/
def mapAll : List Json → Except (List Char) (List JsEvent)
  | [] => .ok []
  | x :: xs => do
      let e ← mapItem x
      let rest ← mapAll xs
      pure (e :: rest)

/-- `mapToEventDetails` (src/unnamed/part_001 lines 56-67):
`Array.isArray(data) ? data : [data]`, then map each element; a `null`
element makes the map throw. -/
def mapToEventDetails (data : Json) : Except (List Char) (List JsEvent) :=
  mapAll (eventsArray data)

/-- The substring-isolation step of `extractEventDetailsDirect`
(src/unnamed/part_001 lines 170-189): strip ```json fences when present,
then cut at the first `[` / last `]`, falling back to the first `{` /
last `}` wrapped in brackets, else leave the text unchanged. -/
def isolateJson (responseText : List Char) : List Char :=
  let j0 :=
    if hasSubstr responseText (S ("```json")) then
      replaceAll (replaceAll responseText (S ("```json")) []) (S ("```")) []
    else responseText
  match firstIdx j0 '[', lastIdx j0 ']' with
  | some fb, some lb => jsSubstring j0 fb (lb + 1)
  | _, _ =>
      match firstIdx j0 '{', lastIdx j0 '}' with
      | some fb, some lb => ('[' :: jsSubstring j0 fb (lb + 1)) ++ [']']
      | _, _ => j0

/-- `extractEventDetailsDirect` (src/unnamed/part_001 lines 165-199)
restricted to its response-handling part: the model-call transport is
outside this model, so the function takes the raw `response.text` and
performs the empty-check, isolation, `JSON.parse` and mapping.  `.error`
models a thrown exception with its message; the outer `catch` of the
source rethrows unchanged, so the `TypeError` of a `null` element
propagates as-is. -/
def extractEventDetailsDirect (responseText : List Char) :
    Except (List Char) (List JsEvent) :=
  if responseText = [] then
    .error (S ("No response from AI"))
  else
    match jsonParse (isolateJson responseText) with
    | none => .error (S ("Failed to parse AI response as JSON"))
    | some data => mapToEventDetails data

/-! ## Typed event record (types.ts `EventDetails`)

The review queue and the calendar-link encoder handle candidates through
the `EventDetails` interface of `types.ts`: six string fields (the
optional `recurrence` is modelled as a string, `[]` meaning absent, which
is how every call site materialises it). -/

structure EventDetails where
  title : List Char
  location : List Char
  description : List Char
  startDateTime : List Char
  endDateTime : List Char
  recurrence : List Char
deriving DecidableEq

/-! ## Review queue state machine (src/App.tsx + src/components/EventForm.tsx)

`events` is the canonical candidate array (`useState<EventDetails[]>` in
`App.tsx`), `stackOrder` the queue of indices, and `forms` the per-card
`formData` of each `EventForm` (`useState<EventDetails>(initialData)` —
one local copy per card, initialised from the canonical array entry). -/

structure ReviewSession where
  events : List EventDetails
  stackOrder : List Nat
  forms : List EventDetails
deriving DecidableEq

/-- State after `extractionSucceeds`: queue initialised to identity order
(App.tsx line 41: `extractedEvents.map((_, i) => i)`), every card's form
state initialised from its candidate. -/
def initSession (evs : List EventDetails) : ReviewSession where
  events := evs
  stackOrder := List.range evs.length
  forms := evs

/-- User actions inside `Review`: edit a field of the front card
(`EventForm.handleChange`, which only updates the card-local `formData`),
commit the front card (`handleAddToCalendar` → `onComplete` →
`handleCardSaved` → delayed `dismissCurrentCard`), or discard it
(`onReset` → `dismissCurrentCard`). -/
inductive ReviewAction where
  | edit (f : EventDetails → EventDetails)
  | commit
  | discard

/-- Replace the element at index `i` by `f` of it, leaving other
positions unchanged. -/
def updateAt (i : Nat) (f : EventDetails → EventDetails)
    (l : List EventDetails) : List EventDetails :=
  l.mapIdx (fun j e => if j = i then f e else e)

/-- One transition of the review state machine.  `edit` writes only the
front card's local `formData`; both `commit` and `discard` end in
`dismissCurrentCard`, which shifts the front index off `stackOrder`
(App.tsx lines 63-74).  Nothing ever writes `events`. -/
def reviewStep (s : ReviewSession) : ReviewAction → ReviewSession
  | .edit f =>
      match s.stackOrder with
      | [] => s
      | i :: _ => { s with forms := updateAt i f s.forms }
  | .commit => { s with stackOrder := s.stackOrder.tail }
  | .discard => { s with stackOrder := s.stackOrder.tail }

/-- Run a sequence of review actions from a state. -/
def applyReview (acts : List ReviewAction) (s : ReviewSession) : ReviewSession :=
  acts.foldl reviewStep s

/-! ## Recurrence rule composition and decomposition
(src/unnamed/part_000 lines 348-590: the `EventForm` recurrence state) -/

/-- The four recurrence units of the `recurrenceUnit` state. -/
inductive RecUnit where
  | DAILY | WEEKLY | MONTHLY | YEARLY
deriving DecidableEq

/-- Text of a recurrence unit. -/
def recUnitStr : RecUnit → List Char
  | .DAILY => S ("DAILY")
  | .WEEKLY => S ("WEEKLY")
  | .MONTHLY => S ("MONTHLY")
  | .YEARLY => S ("YEARLY")

/-- Character of decimal digit `k` (`k ≤ 9`). -/
def digitChar (k : Nat) : Char := Char.ofNat (48 + k)

/-- Decimal digit string of a natural number (model of JS number-to-string
for integers; `fuel` is always `n + 1`, enough since `n / 10 < n` for
`n ≥ 10`). -/
def natToStrAux : Nat → Nat → List Char
  | 0, _ => []
  | fuel + 1, n =>
      if n < 10 then [digitChar n]
      else natToStrAux fuel (n / 10) ++ [digitChar (n % 10)]

/-- Decimal representation of a natural number. -/
def natToStr (n : Nat) : List Char := natToStrAux (n + 1) n

/-- Decimal representation of an integer (JS `String(n)` for integral
numbers, as produced in a template literal). -/
def intToStr (i : Int) : List Char :=
  if i < 0 then '-' :: natToStr i.natAbs else natToStr i.toNat

/-- The composition effect (part_000 lines 388-395): the rule string
rebuilt from the unit and interval state whenever recurrence is enabled:
`RRULE:FREQ=${recurrenceUnit};INTERVAL=${recurrenceInterval}`. -/
def composeRRule (u : RecUnit) (interval : Int) : List Char :=
  S ("RRULE:FREQ=") ++ recUnitStr u ++ S (";INTERVAL=") ++ intToStr interval

/-- Try the alternation `FREQ=(DAILY|WEEKLY|MONTHLY|YEARLY)` at the head
of `s`, in the regex's left-to-right order. -/
def tryFreqAt (s : List Char) : Option RecUnit :=
  if (S ("FREQ=DAILY")).isPrefixOf s then some .DAILY
  else if (S ("FREQ=WEEKLY")).isPrefixOf s then some .WEEKLY
  else if (S ("FREQ=MONTHLY")).isPrefixOf s then some .MONTHLY
  else if (S ("FREQ=YEARLY")).isPrefixOf s then some .YEARLY
  else none

/-- First match of `/FREQ=(DAILY|WEEKLY|MONTHLY|YEARLY)/` in `s`
(part_000 line 375), returning the captured unit. -/
def findFreq : List Char → Option RecUnit
  | [] => none
  | c :: rest =>
      match tryFreqAt (c :: rest) with
      | some u => some u
      | none => findFreq rest

/-- Try `INTERVAL=(\d+)` at the head of `s`, returning the greedy digit
capture. -/
def tryIntervalAt (s : List Char) : Option (List Char) :=
  if (S ("INTERVAL=")).isPrefixOf s then
    let ds := (s.drop 9).takeWhile isDigit
    if ds = [] then none else some ds
  else none

/-- First match of `/INTERVAL=(\d+)/` in `s` (part_000 line 376),
returning the captured digits. -/
def findIntervalDigits : List Char → Option (List Char)
  | [] => none
  | c :: rest =>
      match tryIntervalAt (c :: rest) with
      | some ds => some ds
      | none => findIntervalDigits rest

/-- The interval carried by a rule string: the `INTERVAL=(\d+)` capture
fed through `parseInt(…, 10)` (which on a pure digit capture is just its
decimal value). -/
def intervalOfRule (s : List Char) : Option Int :=
  (findIntervalDigits s).map (fun ds => (digitsToNat ds : Int))

/-- The RRULE-parse effect (part_000 lines 371-385): starting from the
prior `(recurrenceUnit, recurrenceInterval)` state, overwrite each
component only when its regex matches. -/
def parseRuleEffect (prior : RecUnit × Int) (rule : List Char) : RecUnit × Int :=
  (match findFreq rule with
   | some u => u
   | none => prior.1,
   match intervalOfRule rule with
   | some n => n
   | none => prior.2)

/-- Model of JS `parseInt(s, 10)`: skip leading whitespace, optional
sign, then a maximal run of digits; `none` models `NaN`. -/
def jsParseInt (s : List Char) : Option Int :=
  let s1 := s.dropWhile isJsonWs
  let (neg, s2) :=
    match s1 with
    | '-' :: r => (true, r)
    | '+' :: r => (false, r)
    | _ => (false, s1)
  let ds := s2.takeWhile isDigit
  if ds = [] then none
  else
    let v : Int := (digitsToNat ds : Int)
    some (if neg then -v else v)

/-- The `recurrenceInterval` input handler (part_000 line 536):
`Math.max(1, parseInt(e.target.value) || 1)` — `NaN` and `0` fall back to
`1` through `||`, then the lower clamp applies. -/
def sanitizeIntervalInput (s : List Char) : Int :=
  let v : Int :=
    match jsParseInt s with
    | none => 1
    | some 0 => 1
    | some k => k
  max 1 v

/-! ## Claim theorems (review queue and normalizer) -/

/-- C1, counterexample input: one extracted candidate whose title is `A`. -/
def exCand : EventDetails where
  title := S ("A")
  location := []
  description := []
  startDateTime := []
  endDateTime := []
  recurrence := []

/-- C1, counterexample run: the user edits the front card's title to `B`,
then commits it. -/
def exRun : ReviewSession :=
  applyReview
    [ReviewAction.edit (fun e => { e with title := S ("B") }), ReviewAction.commit]
    (initSession [exCand])

/-! ## Civil calendar arithmetic

Model of the proleptic-Gregorian time arithmetic that ECMA-262 `Date`
performs.  Instants are milliseconds since 0001-01-01T00:00:00 UTC (a
shifted epoch: only differences and civil fields are ever observed, so
the shift is unobservable; it keeps every in-range value a natural
number). -/

structure Civil where
  y : Nat
  mo : Nat
  d : Nat
  h : Nat
  mi : Nat
  s : Nat
  ms : Nat
deriving DecidableEq

/-- Gregorian leap-year test. -/
def isLeap (y : Nat) : Bool :=
  (y % 4 = 0 && y % 100 ≠ 0) || y % 400 = 0

/-- One extra day in leap years. -/
def leapBit : Bool → Nat
  | true => 1
  | false => 0

/-- Number of days in a month, by leap flag. -/
def monthLen (leap : Bool) (m : Nat) : Nat :=
  match m with
  | 1 => 31 | 3 => 31 | 5 => 31 | 7 => 31 | 8 => 31 | 10 => 31 | 12 => 31
  | 4 => 30 | 6 => 30 | 9 => 30 | 11 => 30
  | 2 => 28 + leapBit leap
  | _ => 0

/-- Number of days in a month of a given year. -/
def daysInMonth (y m : Nat) : Nat := monthLen (isLeap y) m

/-- Days in the months strictly before month `m` of a year with the given
leap flag. -/
def daysBeforeMonth (leap : Bool) (m : Nat) : Nat :=
  match m with
  | 1 => 0 | 2 => 31 | 3 => 59 + leapBit leap | 4 => 90 + leapBit leap
  | 5 => 120 + leapBit leap | 6 => 151 + leapBit leap | 7 => 181 + leapBit leap
  | 8 => 212 + leapBit leap | 9 => 243 + leapBit leap | 10 => 273 + leapBit leap
  | 11 => 304 + leapBit leap | 12 => 334 + leapBit leap
  | _ => 365 + leapBit leap

/-- Days in the years strictly before year `y` (year 1 is day 0). -/
def daysBeforeYear (y : Nat) : Nat :=
  365 * (y - 1) + (y - 1) / 4 - (y - 1) / 100 + (y - 1) / 400

/-- Day number of a civil date (days since 0001-01-01). -/
def civilToDay (y m d : Nat) : Nat :=
  daysBeforeYear y + daysBeforeMonth (isLeap y) m + (d - 1)

/-- Month and day-of-month from a day-of-year index (`0`-based). -/
def monthFromDoy (leap : Bool) (doy : Nat) : Nat × Nat :=
  if doy < 31 then (1, doy + 1)
  else if doy < 59 + leapBit leap then (2, doy - 31 + 1)
  else if doy < 90 + leapBit leap then (3, doy - (59 + leapBit leap) + 1)
  else if doy < 120 + leapBit leap then (4, doy - (90 + leapBit leap) + 1)
  else if doy < 151 + leapBit leap then (5, doy - (120 + leapBit leap) + 1)
  else if doy < 181 + leapBit leap then (6, doy - (151 + leapBit leap) + 1)
  else if doy < 212 + leapBit leap then (7, doy - (181 + leapBit leap) + 1)
  else if doy < 243 + leapBit leap then (8, doy - (212 + leapBit leap) + 1)
  else if doy < 273 + leapBit leap then (9, doy - (243 + leapBit leap) + 1)
  else if doy < 304 + leapBit leap then (10, doy - (273 + leapBit leap) + 1)
  else if doy < 334 + leapBit leap then (11, doy - (304 + leapBit leap) + 1)
  else (12, doy - (334 + leapBit leap) + 1)

/-- The 400-year-cycle quotient of a day number. -/
def q400of (n : Nat) : Nat := n / 146097

/-- The remainder of a day number inside its 400-year cycle. -/
def rOf (n : Nat) : Nat := n % 146097

/-- The century quotient inside the cycle, capped at 3 (the last century
of a 400-year cycle is one day longer). -/
def q100of (n : Nat) : Nat := min 3 (rOf n / 36524)

/-- Remaining days inside the century. -/
def r2of (n : Nat) : Nat := rOf n - 36524 * q100of n

/-- The 4-year-block quotient inside the century. -/
def q4of (n : Nat) : Nat := r2of n / 1461

/-- Remaining days inside the 4-year block. -/
def r3of (n : Nat) : Nat := r2of n % 1461

/-- The year quotient inside the 4-year block, capped at 3 (the last year
of a 4-year block may be the long leap year). -/
def q1of (n : Nat) : Nat := min 3 (r3of n / 365)

/-- Day-of-year of a day number. -/
def doyOf (n : Nat) : Nat := r3of n - 365 * q1of n

/-- Year of a day number. -/
def yearOf (n : Nat) : Nat :=
  400 * q400of n + 100 * q100of n + 4 * q4of n + q1of n + 1

/-- Civil date of a day number: decompose into 400-year, 100-year, 4-year
and 1-year cycles, then split the day-of-year. -/
def dayToCivil (n : Nat) : Nat × Nat × Nat :=
  (yearOf n,
   (monthFromDoy (isLeap (yearOf n)) (doyOf n)).1,
   (monthFromDoy (isLeap (yearOf n)) (doyOf n)).2)

/-- Civil fields of an instant (model of what `toISOString` renders;
meaningful for `0 ≤ t`, which every parseable date in range yields). -/
def msToCivil (t : Int) : Civil :=
  let n := t.toNat
  let day := n / 86400000
  let r := n % 86400000
  let ymd := dayToCivil day
  ⟨ymd.1, ymd.2.1, ymd.2.2, r / 3600000, r % 3600000 / 60000,
    r % 60000 / 1000, r % 1000⟩

/-- Millisecond instant of a civil datetime (interpreted as UTC). -/
def civilToMsNat (c : Civil) : Nat :=
  86400000 * civilToDay c.y c.mo c.d +
    3600000 * c.h + 60000 * c.mi + 1000 * c.s + c.ms

/-- Millisecond instant of a civil datetime, as an integer. -/
def civilToMs (c : Civil) : Int := (civilToMsNat c : Int)

/-! ## DateTime codec (src/unnamed/part_002) -/

/-- Two fixed-width decimal digits. -/
def pad2 (k : Nat) : List Char := [digitChar (k / 10 % 10), digitChar (k % 10)]

/-- Three fixed-width decimal digits. -/
def pad3 (k : Nat) : List Char :=
  [digitChar (k / 100 % 10), digitChar (k / 10 % 10), digitChar (k % 10)]

/-- Four fixed-width decimal digits. -/
def pad4 (k : Nat) : List Char :=
  [digitChar (k / 1000 % 10), digitChar (k / 100 % 10),
   digitChar (k / 10 % 10), digitChar (k % 10)]

/-- Model of `Date.prototype.toISOString` for instants whose year lies in
0..9999: `YYYY-MM-DDTHH:mm:ss.sssZ`. -/
def isoOf (t : Int) : List Char :=
  let c := msToCivil t
  pad4 c.y ++ ('-' :: (pad2 c.mo ++ ('-' :: (pad2 c.d ++
    ('T' :: (pad2 c.h ++ (':' :: (pad2 c.mi ++
    (':' :: (pad2 c.s ++ ('.' :: (pad3 c.ms ++ ['Z']))))))))))))

/-- Value of two decimal digit characters. -/
def twoDig (a b : Char) : Nat := 10 * digitVal a + digitVal b

/-- Value of four decimal digit characters. -/
def fourDig (a b c d : Char) : Nat :=
  1000 * digitVal a + 100 * digitVal b + 10 * digitVal c + digitVal d

/-- Are all characters decimal digits? -/
def allDigits (cs : List Char) : Bool := cs.all isDigit

/-- Model of `new Date(string).getTime()` for the ISO-8601 fragment the
pipeline produces and consumes (see the module docstring): `YYYY-MM-DD`
optionally followed by `THH:mm`, `THH:mm:ss` or `THH:mm:ss.sss`,
optionally suffixed `Z`.  Date-only forms are UTC; date-time forms
without `Z` are local, i.e. shifted by the constant `tz` minutes of
`getTimezoneOffset()`.  `none` models an invalid date (`NaN`). -/
def parseDate (tz : Int) (str : List Char) : Option Int :=
  match str with
  | y1 :: y2 :: y3 :: y4 :: '-' :: m1 :: m2 :: '-' :: d1 :: d2 :: rest =>
      if allDigits [y1, y2, y3, y4, m1, m2, d1, d2] then
        let y := fourDig y1 y2 y3 y4
        let mo := twoDig m1 m2
        let d := twoDig d1 d2
        if 1 ≤ y ∧ y ≤ 9998 ∧ 1 ≤ mo ∧ mo ≤ 12 ∧ 1 ≤ d ∧ d ≤ daysInMonth y mo then
          match rest with
          | [] => some (civilToMs ⟨y, mo, d, 0, 0, 0, 0⟩)
          | 'T' :: h1 :: h2 :: ':' :: i1 :: i2 :: rest2 =>
              if allDigits [h1, h2, i1, i2] then
                let h := twoDig h1 h2
                let mi := twoDig i1 i2
                if h ≤ 23 ∧ mi ≤ 59 then
                  match rest2 with
                  | [] => some (civilToMs ⟨y, mo, d, h, mi, 0, 0⟩ + tz * 60000)
                  | ['Z'] => some (civilToMs ⟨y, mo, d, h, mi, 0, 0⟩)
                  | ':' :: s1 :: s2 :: rest3 =>
                      if allDigits [s1, s2] then
                        let sec := twoDig s1 s2
                        if sec ≤ 59 then
                          match rest3 with
                          | [] =>
                              some (civilToMs ⟨y, mo, d, h, mi, sec, 0⟩ + tz * 60000)
                          | ['Z'] => some (civilToMs ⟨y, mo, d, h, mi, sec, 0⟩)
                          | '.' :: f1 :: f2 :: f3 :: rest4 =>
                              if allDigits [f1, f2, f3] then
                                let ms := 100 * digitVal f1 + 10 * digitVal f2 +
                                  digitVal f3
                                match rest4 with
                                | [] =>
                                    some (civilToMs ⟨y, mo, d, h, mi, sec, ms⟩ +
                                      tz * 60000)
                                | ['Z'] => some (civilToMs ⟨y, mo, d, h, mi, sec, ms⟩)
                                | _ => none
                              else none
                          | _ => none
                        else none
                      else none
                  | _ => none
                else none
              else none
          | _ => none
        else none
      else none
  | _ => none

/-- `toInputDateTime` (part_002 lines 51-61): empty or unparseable input
yields the empty string; otherwise render the instant shifted by
`getTimezoneOffset() * 60000` as ISO and keep the first 16 characters
(`YYYY-MM-DDTHH:mm`). -/
def toInputDateTime (tz : Int) (isoString : List Char) : List Char :=
  if isoString = [] then []
  else
    match parseDate tz isoString with
    | none => []
    | some t => (isoOf (t - tz * 60000)).take 16

/-- `fromInputDateTime` (part_002 lines 66-71): empty or unparseable
input yields the empty string; otherwise parse as local time and
serialize with `toISOString`. -/
def fromInputDateTime (tz : Int) (localString : List Char) : List Char :=
  if localString = [] then []
  else
    match parseDate tz localString with
    | none => []
    | some t => isoOf t

/-- The regex replacement of `formatToGCalDate` (part_002 line 12), a
global regex alternation of `-`, `:` and a dot followed by three digits:
drop every `-` and `:`, and every `.` followed by three digits. -/
def gcalReplace : List Char → List Char
  | [] => []
  | c :: rest =>
      if c = '-' ∨ c = ':' then gcalReplace rest
      else if c = '.' then
        match rest with
        | a :: b :: c2 :: r2 =>
            if isDigit a ∧ isDigit b ∧ isDigit c2 then gcalReplace r2
            else '.' :: gcalReplace (a :: b :: c2 :: r2)
        | r2 => '.' :: gcalReplace r2
      else c :: gcalReplace rest

/-- `formatToGCalDate` (part_002 lines 7-13): empty string for empty or
unparseable input, else the ISO rendering with `-`, `:` and the
millisecond part removed (`YYYYMMDDTHHMMSSZ`). -/
def formatToGCalDate (tz : Int) (dateString : List Char) : List Char :=
  if dateString = [] then []
  else
    match parseDate tz dateString with
    | none => []
    | some t => gcalReplace (isoOf t)

/-! ## Calendar link encoder (src/unnamed/part_002, `generateGoogleCalendarUrl`) -/

/-- UTF-8 bytes of a character. -/
def utf8Bytes (c : Char) : List Nat :=
  let n := c.toNat
  if n < 128 then [n]
  else if n < 2048 then [192 + n / 64, 128 + n % 64]
  else if n < 65536 then [224 + n / 4096, 128 + n / 64 % 64, 128 + n % 64]
  else [240 + n / 262144, 128 + n / 4096 % 64, 128 + n / 64 % 64, 128 + n % 64]

/-- Uppercase hexadecimal digit. -/
def hexChar (k : Nat) : Char :=
  if k < 10 then digitChar k else Char.ofNat (55 + k)

/-- Is the character kept verbatim by the `application/x-www-form-urlencoded`
serializer used by `URLSearchParams.toString`? -/
def formSafe (c : Char) : Bool :=
  (decide ('0' ≤ c) && decide (c ≤ '9')) ||
  (decide ('a' ≤ c) && decide (c ≤ 'z')) ||
  (decide ('A' ≤ c) && decide (c ≤ 'Z')) ||
  c = '*' || c = '-' || c = '.' || c = '_'

/-- Percent-encode one character as `URLSearchParams.toString` does:
safe characters verbatim, space as `+`, anything else as `%XX` per UTF-8
byte. -/
def formEncodeChar (c : Char) : List Char :=
  if formSafe c then [c]
  else if c = ' ' then ['+']
  else (utf8Bytes c).flatMap (fun b => ['%', hexChar (b / 16), hexChar (b % 16)])

/-- Percent-encode a string. -/
def formEncode (s : List Char) : List Char := s.flatMap formEncodeChar

/-- Serialize parameter pairs as `URLSearchParams.toString`:
`k=v` joined by `&`, keys and values percent-encoded. -/
def serializeParams (ps : List (List Char × List Char)) : List Char :=
  List.intercalate (S ("&"))
    (ps.map (fun p => formEncode p.1 ++ ('=' :: formEncode p.2)))

/-- Look up the (raw, unencoded) value of a query parameter. -/
def lookupParam (ps : List (List Char × List Char)) (k : List Char) :
    Option (List Char) :=
  match ps.find? (fun p => p.1 = k) with
  | none => none
  | some p => some p.2

/-- The four unconditional query parameters built first by
`generateGoogleCalendarUrl` (part_002 lines 22-27): `action`, `text`
(title defaulted to `New Event`), `details`, `location`. -/
def gcalBaseParams (event : EventDetails) : List (List Char × List Char) :=
  [(S ("action"), S ("TEMPLATE")),
   (S ("text"), if event.title = [] then S ("New Event") else event.title),
   (S ("details"), event.description),
   (S ("location"), event.location)]

/-- The `end` local of `generateGoogleCalendarUrl` after its default
(part_002 lines 32-39): the end stamp, replaced — when the start stamp
exists and the end stamp does not — by the stamp of
`new Date(startDateTime).getTime() + 3600000`. -/
def gcalEndStamp (tz : Int) (event : EventDetails) : List Char :=
  if formatToGCalDate tz event.startDateTime ≠ [] ∧
      formatToGCalDate tz event.endDateTime = [] then
    match parseDate tz event.startDateTime with
    | some t => gcalReplace (isoOf (t + 3600000))
    | none => formatToGCalDate tz event.endDateTime
  else formatToGCalDate tz event.endDateTime

/-- The parameter list built by `generateGoogleCalendarUrl` (part_002
lines 18-46): the base parameters, plus `dates=start/end` only when both
stamps are available (the locals `start` and `end` of the source are
inlined / named `gcalEndStamp`). -/
def genParams (tz : Int) (event : EventDetails) : List (List Char × List Char) :=
  if formatToGCalDate tz event.startDateTime ≠ [] ∧ gcalEndStamp tz event ≠ [] then
    gcalBaseParams event ++
      [(S ("dates"),
        formatToGCalDate tz event.startDateTime ++ ('/' :: gcalEndStamp tz event))]
  else gcalBaseParams event

/-- `generateGoogleCalendarUrl` (part_002 lines 18-46): base URL plus the
serialized query string. -/
def generateGoogleCalendarUrl (tz : Int) (event : EventDetails) : List Char :=
  S ("https://calendar.google.com/calendar/render?") ++
    serializeParams (genParams tz event)

/-! ## Helper lemmas for the encoder claims -/

/-- The compact provider stamp `YYYYMMDDTHHMMSSZ` of a civil datetime. -/
def gcalCompact (c : Civil) : List Char :=
  pad4 c.y ++ (pad2 c.mo ++ (pad2 c.d ++
    ('T' :: (pad2 c.h ++ (pad2 c.mi ++ (pad2 c.s ++ ['Z']))))))

/-! ## Civil calendar correctness lemmas

The key facts behind the codec claims: `dayToCivil`/`civilToDay` and
`msToCivil`/`civilToMs` are mutually inverse on the supported range
(years 1..9999), with all produced components valid. -/

/-- Valid civil datetime in the supported range. -/
def validCivil (c : Civil) : Prop :=
  1 ≤ c.y ∧ c.y ≤ 9999 ∧ 1 ≤ c.mo ∧ c.mo ≤ 12 ∧ 1 ≤ c.d ∧
  c.d ≤ daysInMonth c.y c.mo ∧ c.h ≤ 23 ∧ c.mi ≤ 59 ∧ c.s ≤ 59 ∧ c.ms ≤ 999

/-! ## Claim theorems (calendar link encoder) -/

/-- C3, counterexample input: a candidate carrying a present, valid
recurrence rule. -/
def exRecEvent : EventDetails where
  title := S ("Standup")
  location := []
  description := []
  startDateTime := S ("2025-06-02T09:00:00")
  endDateTime := []
  recurrence := S ("RRULE:FREQ=WEEKLY;INTERVAL=2")

/-! ## DateTime codec round-trip lemmas (claim C8) -/

/-- The first 16 characters of the ISO rendering of a civil datetime:
`YYYY-MM-DDTHH:mm`, the `datetime-local` input format. -/
def iso16 (c : Civil) : List Char :=
  pad4 c.y ++ ('-' :: (pad2 c.mo ++ ('-' :: (pad2 c.d ++
    ('T' :: (pad2 c.h ++ (':' :: pad2 c.mi)))))))

/-- C5, witness inputs: a candidate with a parseable start and empty end,
and one with an unparseable start. -/
def exC5Event : EventDetails where
  title := S ("Standup")
  location := []
  description := []
  startDateTime := S ("2025-06-02T09:00:00")
  endDateTime := []
  recurrence := []

/-- C5, witness input with an unparseable start. -/
def exC5NoStart : EventDetails where
  title := S ("Standup")
  location := []
  description := []
  startDateTime := S ("soon")
  endDateTime := S ("2025-06-02T10:00:00")
  recurrence := []

/-! ## Helper lemmas -/

theorem digitVal_digitChar {k : Nat} (h : k < 10) : digitVal (digitChar k) = k := by
  interval_cases k <;> decide

theorem isDigit_digitChar {k : Nat} (h : k < 10) : isDigit (digitChar k) = true := by
  interval_cases k <;> decide

theorem digitsToNat_append_singleton (xs : List Char) (d : Char) :
    digitsToNat (xs ++ [d]) = 10 * digitsToNat xs + digitVal d := by
  simp [digitsToNat, List.foldl_append]

theorem natToStrAux_spec :
    ∀ (fuel n : Nat), n < fuel →
      natToStrAux fuel n ≠ [] ∧
      (∀ c ∈ natToStrAux fuel n, isDigit c = true) ∧
      digitsToNat (natToStrAux fuel n) = n := by
  intro fuel
  induction fuel with
  | zero => intro n h; omega
  | succ fuel ih =>
      intro n h
      by_cases h10 : n < 10
      · refine ⟨by simp [natToStrAux, h10], ?_, ?_⟩
        · intro c hc
          simp [natToStrAux, h10] at hc
          subst hc
          exact isDigit_digitChar h10
        · simp [natToStrAux, h10, digitsToNat, digitVal_digitChar h10]
      · have hdiv : n / 10 < fuel := by omega
        obtain ⟨h1, h2, h3⟩ := ih (n / 10) hdiv
        refine ⟨by simp [natToStrAux, h10], ?_, ?_⟩
        · intro c hc
          simp [natToStrAux, h10] at hc
          rcases hc with hc | hc
          · exact h2 c hc
          · subst hc
            exact isDigit_digitChar (by omega)
        · have hmod : n % 10 < 10 := by omega
          simp [natToStrAux, h10, digitsToNat_append_singleton, h3,
            digitVal_digitChar hmod]
          omega

theorem natToStr_ne_nil (n : Nat) : natToStr n ≠ [] :=
  (natToStrAux_spec (n + 1) n (by omega)).1

theorem natToStr_digits (n : Nat) : ∀ c ∈ natToStr n, isDigit c = true :=
  (natToStrAux_spec (n + 1) n (by omega)).2.1

theorem digitsToNat_natToStr (n : Nat) : digitsToNat (natToStr n) = n :=
  (natToStrAux_spec (n + 1) n (by omega)).2.2

theorem takeWhile_isDigit_natToStr (n : Nat) :
    (natToStr n).takeWhile isDigit = natToStr n :=
  List.takeWhile_eq_self_iff.mpr (natToStr_digits n)

theorem intToStr_ofNat (n : Nat) : intToStr (n : Int) = natToStr n := by
  simp [intToStr]

theorem tryIntervalAt_interval_prefix (ds : List Char) (hne : ds ≠ [])
    (hds : ∀ c ∈ ds, isDigit c = true) :
    tryIntervalAt (S ("INTERVAL=") ++ ds) = some ds := by
  have hpre : (S ("INTERVAL=")).isPrefixOf (S ("INTERVAL=") ++ ds) = true := by
    simp [List.isPrefixOf_iff_prefix]
  have hdrop : (S ("INTERVAL=") ++ ds).drop 9 = ds := rfl
  have htake : ds.takeWhile isDigit = ds := List.takeWhile_eq_self_iff.mpr hds
  simp [tryIntervalAt, hpre, hdrop, htake, hne]

theorem findIntervalDigits_skip (c : Char) (rest : List Char)
    (h : tryIntervalAt (c :: rest) = none) :
    findIntervalDigits (c :: rest) = findIntervalDigits rest := by
  rw [findIntervalDigits, h]

theorem findIntervalDigits_here (c : Char) (rest : List Char) (ds : List Char)
    (h : tryIntervalAt (c :: rest) = some ds) :
    findIntervalDigits (c :: rest) = some ds := by
  rw [findIntervalDigits, h]

theorem findIntervalDigits_interval_prefix (ds : List Char) (hne : ds ≠ [])
    (hds : ∀ c ∈ ds, isDigit c = true) :
    findIntervalDigits (S ("INTERVAL=") ++ ds) = some ds := by
  have h := tryIntervalAt_interval_prefix ds hne hds
  exact findIntervalDigits_here 'I' _ ds h

theorem findIntervalDigits_compose (u : RecUnit) (n : Nat) :
    findIntervalDigits (composeRRule u (n : Int)) = some (natToStr n) := by
  have hne := natToStr_ne_nil n
  have hds := natToStr_digits n
  cases u with
  | DAILY =>
      show findIntervalDigits
        ('R' :: 'R' :: 'U' :: 'L' :: 'E' :: ':' :: 'F' :: 'R' :: 'E' :: 'Q' :: '=' ::
         'D' :: 'A' :: 'I' :: 'L' :: 'Y' :: ';' ::
         (S ("INTERVAL=") ++ intToStr (n : Int))) = some (natToStr n)
      rw [intToStr_ofNat]
      exact findIntervalDigits_interval_prefix _ hne hds
  | WEEKLY =>
      show findIntervalDigits
        ('R' :: 'R' :: 'U' :: 'L' :: 'E' :: ':' :: 'F' :: 'R' :: 'E' :: 'Q' :: '=' ::
         'W' :: 'E' :: 'E' :: 'K' :: 'L' :: 'Y' :: ';' ::
         (S ("INTERVAL=") ++ intToStr (n : Int))) = some (natToStr n)
      rw [intToStr_ofNat]
      exact findIntervalDigits_interval_prefix _ hne hds
  | MONTHLY =>
      show findIntervalDigits
        ('R' :: 'R' :: 'U' :: 'L' :: 'E' :: ':' :: 'F' :: 'R' :: 'E' :: 'Q' :: '=' ::
         'M' :: 'O' :: 'N' :: 'T' :: 'H' :: 'L' :: 'Y' :: ';' ::
         (S ("INTERVAL=") ++ intToStr (n : Int))) = some (natToStr n)
      rw [intToStr_ofNat]
      exact findIntervalDigits_interval_prefix _ hne hds
  | YEARLY =>
      show findIntervalDigits
        ('R' :: 'R' :: 'U' :: 'L' :: 'E' :: ':' :: 'F' :: 'R' :: 'E' :: 'Q' :: '=' ::
         'Y' :: 'E' :: 'A' :: 'R' :: 'L' :: 'Y' :: ';' ::
         (S ("INTERVAL=") ++ intToStr (n : Int))) = some (natToStr n)
      rw [intToStr_ofNat]
      exact findIntervalDigits_interval_prefix _ hne hds

theorem intervalOfRule_compose (u : RecUnit) (n : Nat) :
    intervalOfRule (composeRRule u (n : Int)) = some (n : Int) := by
  simp [intervalOfRule, findIntervalDigits_compose, digitsToNat_natToStr]

theorem findFreq_compose (u : RecUnit) (i : Int) :
    findFreq (composeRRule u i) = some u := by
  cases u <;> rfl

theorem jsOr_ne_null (v d : Json) (hd : d ≠ Json.null) : jsOr v d ≠ Json.null := by
  unfold jsOr
  split
  · rename_i htrue
    intro hv
    subst hv
    simp [jsTruthy] at htrue
  · exact hd

theorem mapItemD_field_ne_null (item : Json) (f : Fld) :
    fieldGet (mapItemD item) f ≠ Json.null := by
  cases f <;> exact jsOr_ne_null _ _ (by simp [fieldDefault])

theorem mapItem_ok (item : Json) (h : jsonIsNull item = false) :
    mapItem item = .ok (mapItemD item) := by
  cases item <;> first | exact Bool.noConfusion h | rfl

theorem mapAll_ok (xs : List Json) (h : ∀ x ∈ xs, jsonIsNull x = false) :
    mapAll xs = .ok (xs.map mapItemD) := by
  induction xs with
  | nil => rfl
  | cons x xs ih =>
      have hx : jsonIsNull x = false := h x (List.mem_cons_self x xs)
      have hrest := ih (fun y hy => h y (List.mem_cons_of_mem x hy))
      simp only [mapAll]
      rw [mapItem_ok x hx]
      show (mapAll xs >>= fun rest => pure (mapItemD x :: rest)) =
        .ok ((x :: xs).map mapItemD)
      rw [hrest]
      rfl

theorem mapAll_error (xs : List Json) (h : xs.any jsonIsNull = true) :
    mapAll xs = .error (S ("Cannot read properties of null")) := by
  induction xs with
  | nil => cases h
  | cons x xs ih =>
      cases hx : jsonIsNull x with
      | true =>
          have hxn : x = Json.null := by
            cases x <;> simp [jsonIsNull] at hx ⊢
          subst hxn
          rfl
      | false =>
          have htail : xs.any jsonIsNull = true := by
            simp only [List.any_cons, hx, Bool.false_or] at h
            exact h
          simp only [mapAll]
          rw [mapItem_ok x hx]
          show (mapAll xs >>= fun rest => pure (mapItemD x :: rest)) =
            .error (S ("Cannot read properties of null"))
          rw [ih htail]
          rfl

theorem reviewStep_events (s : ReviewSession) (a : ReviewAction) :
    (reviewStep s a).events = s.events := by
  obtain ⟨ev, so, fo⟩ := s
  cases a with
  | edit f => cases so <;> rfl
  | commit => rfl
  | discard => rfl

theorem applyReview_events (acts : List ReviewAction) (s : ReviewSession) :
    (applyReview acts s).events = s.events := by
  induction acts generalizing s with
  | nil => rfl
  | cons a rest ih =>
      show (applyReview rest (reviewStep s a)).events = s.events
      rw [ih, reviewStep_events]

theorem reviewStep_stackOrder (s : ReviewSession) (a : ReviewAction) :
    (reviewStep s a).stackOrder = s.stackOrder ∨
    (reviewStep s a).stackOrder = s.stackOrder.tail := by
  obtain ⟨ev, so, fo⟩ := s
  cases a with
  | edit f => left; cases so <;> rfl
  | commit => right; rfl
  | discard => right; rfl

theorem applyReview_stackOrder_drop (acts : List ReviewAction)
    (s : ReviewSession) (base : List Nat) (k : Nat)
    (h : s.stackOrder = base.drop k) :
    ∃ k2, (applyReview acts s).stackOrder = base.drop k2 := by
  induction acts generalizing s k with
  | nil => exact ⟨k, h⟩
  | cons a rest ih =>
      show ∃ k2, (applyReview rest (reviewStep s a)).stackOrder = base.drop k2
      rcases reviewStep_stackOrder s a with hq | hq
      · exact ih (reviewStep s a) k (hq.trans h)
      · refine ih (reviewStep s a) (k + 1) ?_
        rw [hq, h, List.tail_drop]

/-- C1 counterexample: editing the front candidate's title to `B` and
committing leaves the canonical array entry with its original title `A`
(the edit lives only in the card's local form state), refuting the claim
that committed edits are written back to the canonical candidate array. -/
theorem C1_commit_writeback_counterexample :
    exRun.stackOrder = [] ∧
    exRun.forms = [{ exCand with title := S ("B") }] ∧
    exRun.events = [exCand] ∧
    exCand.title = S ("A") ∧
    S ("A") ≠ S ("B") :=
  ⟨rfl, rfl, rfl, rfl, by decide⟩

/-- C1 (amended): user edits are held only in the per-card form state;
no review action — edit, commit or discard — ever writes the canonical
candidate array, which stays equal to the extracted batch. -/
theorem C1_events_never_written (evs : List EventDetails)
    (acts : List ReviewAction) :
    (applyReview acts (initSession evs)).events = evs :=
  applyReview_events acts (initSession evs)

/-- C2 counterexample: the text `[oops]` contains a bracketed
malformed-but-present JSON region (first `[` at 0, last `]` at 5, and the
region fails `JSON.parse`), yet `extractEventDetailsDirect` throws —
refuting the claim that it never throws on malformed-but-present JSON
substrings and throws only when no JSON can be located. -/
theorem C2_malformed_region_counterexample :
    firstIdx (S ("[oops]")) '[' = some 0 ∧
    lastIdx (S ("[oops]")) ']' = some 5 ∧
    jsonParse (jsSubstring (S ("[oops]")) 0 6) = none ∧
    extractEventDetailsDirect (S ("[oops]")) =
      .error (S ("Failed to parse AI response as JSON")) :=
  ⟨rfl, rfl, rfl, rfl⟩

/-- C2 (amended): for non-empty raw text the normalizer throws in
exactly two cases — when the isolated substring (the bracket/brace
region when one is located, the whole fence-stripped text otherwise)
fails `JSON.parse`, rethrown as `Failed to parse AI response as JSON`,
and when it parses but the resulting events array contains a `null`
element, whose property read throws `TypeError`; otherwise it returns
the mapped candidates.  In particular it does throw on
malformed-but-present JSON regions. -/
theorem C2_throw_characterization (text : List Char) (h : text ≠ []) :
    extractEventDetailsDirect text =
      match jsonParse (isolateJson text) with
      | none => .error (S ("Failed to parse AI response as JSON"))
      | some data =>
          if (eventsArray data).any jsonIsNull = true then
            .error (S ("Cannot read properties of null"))
          else .ok ((eventsArray data).map mapItemD) := by
  unfold extractEventDetailsDirect
  rw [if_neg h]
  cases hp : jsonParse (isolateJson text) with
  | none => rfl
  | some data =>
      show mapToEventDetails data =
        (if (eventsArray data).any jsonIsNull = true then
          .error (S ("Cannot read properties of null"))
        else .ok ((eventsArray data).map mapItemD))
      unfold mapToEventDetails
      cases hn : (eventsArray data).any jsonIsNull with
      | true =>
          rw [if_pos rfl]
          exact mapAll_error _ hn
      | false =>
          rw [if_neg (by decide)]
          refine mapAll_ok _ ?_
          intro x hx
          by_contra hc
          have : jsonIsNull x = true := by
            cases hb : jsonIsNull x
            · exact absurd hb hc
            · rfl
          exact absurd (List.any_of_mem hx this) (by simp [hn])

/-- C2 witness: instantiating the amended characterization at the text
`[null]`, whose bracketed region parses but holds a `null` element. -/
theorem C2_throw_characterization_witness :
    extractEventDetailsDirect (S ("[null]")) =
      match jsonParse (isolateJson (S ("[null]"))) with
      | none => .error (S ("Failed to parse AI response as JSON"))
      | some data =>
          if (eventsArray data).any jsonIsNull = true then
            .error (S ("Cannot read properties of null"))
          else .ok ((eventsArray data).map mapItemD) :=
  C2_throw_characterization (S ("[null]")) (by decide)

/-- C4 counterexample: typing `1000` into the interval field passes the
input handler unchanged (no upper clamp), and the composed rule carries
`INTERVAL=1000`, which is outside `[1, 999]` — refuting the claim that
the interval is clamped to `[1, 999]` at composition. -/
theorem C4_no_upper_clamp_counterexample :
    sanitizeIntervalInput (S ("1000")) = 1000 ∧
    composeRRule RecUnit.WEEKLY (sanitizeIntervalInput (S ("1000"))) =
      S ("RRULE:FREQ=WEEKLY;INTERVAL=1000") ∧
    intervalOfRule (S ("RRULE:FREQ=WEEKLY;INTERVAL=1000")) = some 1000 ∧
    ¬ ((1000 : Int) ≤ 999) :=
  ⟨by decide, rfl, rfl, by decide⟩

/-- C4 (amended): the interval is clamped only from below — every raw input
yields an interval of at least 1 (0, negative and non-numeric input fall
back to 1), and the composed rule carries that interval verbatim, with no
upper clamp at 999 (the `max="999"` is only an HTML attribute). -/
theorem C4_lower_clamp_only (u : RecUnit) (s : List Char) :
    1 ≤ sanitizeIntervalInput s ∧
    intervalOfRule (composeRRule u (sanitizeIntervalInput s)) =
      some (sanitizeIntervalInput s) := by
  constructor
  · simp [sanitizeIntervalInput]
  · have h1 : 1 ≤ sanitizeIntervalInput s := by simp [sanitizeIntervalInput]
    obtain ⟨m, hm⟩ : ∃ m : Nat, sanitizeIntervalInput s = (m : Int) :=
      ⟨(sanitizeIntervalInput s).toNat, by omega⟩
    rw [hm]
    exact intervalOfRule_compose u m

/-- C6 counterexample: the text `[null]` parses to a one-element array
whose element `null` has every field absent (hence falsy), yet the
normalizer does not produce a defaulted candidate — the property read on
the `null` element throws `TypeError` — refuting the claim that each
parsed element maps to a candidate with field-level defaults. -/
theorem C6_null_element_counterexample :
    jsonParse (isolateJson (S ("[null]"))) = some (Json.arr [Json.null]) ∧
    extractEventDetailsDirect (S ("[null]")) =
      .error (S ("Cannot read properties of null")) :=
  ⟨rfl, rfl⟩

/-- C6 (amended): every parsed element other than `null` maps to a
candidate with field-level defaults — an absent or falsy field value
becomes `Untitled Event` for the title and the empty string for every
other field — while a `null` element is not mapped at all: its property
read throws `TypeError`. -/
theorem C6_nonnull_falsy_field_defaults (item : Json) (f : Fld)
    (hnn : jsonIsNull item = false)
    (h : jsTruthy (jsGetD item (fieldKey f)) = false) :
    mapItem item = .ok (mapItemD item) ∧
    fieldGet (mapItemD item) f = fieldDefault f := by
  refine ⟨mapItem_ok item hnn, ?_⟩
  cases f <;> simp [mapItemD, fieldGet, jsOr, h]

/-- C6 witness: the spec scenario — a bare object with an empty title
maps to the `Untitled Event` default. -/
theorem C6_nonnull_falsy_field_defaults_witness :
    jsonIsNull (Json.obj [(S ("title"), Json.str [])]) = false ∧
    jsTruthy (jsGetD (Json.obj [(S ("title"), Json.str [])]) (fieldKey Fld.title)) = false ∧
    mapItem (Json.obj [(S ("title"), Json.str [])]) =
      .ok (mapItemD (Json.obj [(S ("title"), Json.str [])])) ∧
    fieldGet (mapItemD (Json.obj [(S ("title"), Json.str [])])) Fld.title =
      Json.str (S ("Untitled Event")) :=
  ⟨rfl, rfl,
   (C6_nonnull_falsy_field_defaults (Json.obj [(S ("title"), Json.str [])])
      Fld.title rfl rfl).1,
   (C6_nonnull_falsy_field_defaults (Json.obj [(S ("title"), Json.str [])])
      Fld.title rfl rfl).2⟩

/-- C7: starting from the identity queue, any sequence of review actions
leaves the queue a suffix of the identity ordering — so it has no
duplicates, every index is a valid index into the candidate array, and
the order only ever changed by removing front elements. -/
theorem C7_queue_invariant (evs : List EventDetails)
    (acts : List ReviewAction) :
    (∃ k, (applyReview acts (initSession evs)).stackOrder =
        (List.range evs.length).drop k) ∧
    (applyReview acts (initSession evs)).stackOrder.Nodup ∧
    (∀ i ∈ (applyReview acts (initSession evs)).stackOrder, i < evs.length) := by
  obtain ⟨k, hk⟩ :=
    applyReview_stackOrder_drop acts (initSession evs)
      (List.range evs.length) 0 (by simp [initSession])
  refine ⟨⟨k, hk⟩, ?_, ?_⟩
  · rw [hk]
    exact (List.drop_sublist _ _).nodup (List.nodup_range _)
  · intro i hi
    rw [hk] at hi
    exact List.mem_range.mp (List.mem_of_mem_drop hi)

/-- C9: composing a rule from a unit and a positive interval yields
`RRULE:FREQ=<UNIT>;INTERVAL=<N>`, and the RRULE-parse effect recovers
exactly that unit and interval from it, whatever the prior state. -/
theorem C9_compose_parse_roundtrip (u : RecUnit) (n : Nat) (h : 0 < n)
    (prior : RecUnit × Int) :
    composeRRule u (n : Int) =
      S ("RRULE:FREQ=") ++ recUnitStr u ++ S (";INTERVAL=") ++ natToStr n ∧
    composeRRule u (n : Int) ≠ [] ∧
    parseRuleEffect prior (composeRRule u (n : Int)) = (u, (n : Int)) := by
  refine ⟨by simp [composeRRule, intToStr_ofNat], ?_, ?_⟩
  · simp [composeRRule, S]
  · simp [parseRuleEffect, findFreq_compose, intervalOfRule_compose]

/-- C9 witness: the spec scenario `unit=WEEKLY, interval=2`. -/
theorem C9_compose_parse_roundtrip_witness :
    composeRRule RecUnit.WEEKLY ((2 : Nat) : Int) = S ("RRULE:FREQ=WEEKLY;INTERVAL=2") ∧
    parseRuleEffect (RecUnit.DAILY, 1) (composeRRule RecUnit.WEEKLY ((2 : Nat) : Int)) =
      (RecUnit.WEEKLY, ((2 : Nat) : Int)) :=
  ⟨rfl, (C9_compose_parse_roundtrip RecUnit.WEEKLY 2 (by decide) (RecUnit.DAILY, 1)).2.2⟩

/-- C10 counterexample: the text `[null,true]` parses to a two-element
array, yet the normalizer returns no candidates at all — the `null`
element's property read throws `TypeError` — refuting the claim that
every successfully parsed array of `n` elements yields exactly `n`
candidates. -/
theorem C10_null_in_array_counterexample :
    jsonParse (isolateJson (S ("[null,true]"))) =
      some (Json.arr [Json.null, Json.bool true]) ∧
    extractEventDetailsDirect (S ("[null,true]")) =
      .error (S ("Cannot read properties of null")) :=
  ⟨rfl, rfl⟩

/-- C10 (amended): on a parsed array with no `null` element the
normalizer returns exactly one candidate per element in the same order
(and exactly one candidate for a bare non-array, non-null value), with
every field of every produced candidate a defined, non-null value; an
array containing `null` instead yields no candidates — the map throws
`TypeError`. -/
theorem C10_nonnull_count_order (xs : List Json) (j : Json)
    (hxs : ∀ x ∈ xs, jsonIsNull x = false)
    (hj : ∀ ys, j ≠ Json.arr ys) (hjn : jsonIsNull j = false) :
    mapToEventDetails (Json.arr xs) = .ok (xs.map mapItemD) ∧
    (xs.map mapItemD).length = xs.length ∧
    (∀ i : Nat, (xs.map mapItemD)[i]? = (xs[i]?).map mapItemD) ∧
    mapToEventDetails j = .ok [mapItemD j] ∧
    (∀ ev ∈ xs.map mapItemD, ∀ f, fieldGet ev f ≠ Json.null) ∧
    (∀ f, fieldGet (mapItemD j) f ≠ Json.null) := by
  have harr : eventsArray (Json.arr xs) = xs := rfl
  have hone : eventsArray j = [j] := by
    cases j with
    | arr ys => exact absurd rfl (hj ys)
    | null => rfl
    | bool b => rfl
    | num a b c d => rfl
    | str s => rfl
    | obj fs => rfl
  refine ⟨?_, by simp, ?_, ?_, ?_, ?_⟩
  · unfold mapToEventDetails
    rw [harr]
    exact mapAll_ok xs hxs
  · intro i
    simp [List.getElem?_map]
  · unfold mapToEventDetails
    rw [hone]
    have := mapAll_ok [j] (by intro x hx; simp at hx; subst hx; exact hjn)
    simpa using this
  · intro ev hev f
    simp at hev
    obtain ⟨x, _, hx⟩ := hev
    rw [← hx]
    exact mapItemD_field_ne_null x f
  · exact mapItemD_field_ne_null j

/-- C10 witness: a two-element null-free parsed array and a bare
object. -/
theorem C10_nonnull_count_order_witness :
    mapToEventDetails (Json.arr [Json.bool true, Json.str (S ("x"))]) =
      .ok ([Json.bool true, Json.str (S ("x"))].map mapItemD) ∧
    mapToEventDetails (Json.obj []) = .ok [mapItemD (Json.obj [])] :=
  ⟨(C10_nonnull_count_order [Json.bool true, Json.str (S ("x"))] (Json.obj [])
      (by decide) (fun ys h => Json.noConfusion h) rfl).1,
   (C10_nonnull_count_order [Json.bool true, Json.str (S ("x"))] (Json.obj [])
      (by decide) (fun ys h => Json.noConfusion h) rfl).2.2.2.1⟩

theorem isDigit_digitChar_mod (k : Nat) : isDigit (digitChar (k % 10)) = true :=
  isDigit_digitChar (Nat.mod_lt _ (by omega))

theorem gcalReplace_cons_of_skip (c : Char) (rest : List Char)
    (h : c = '-' ∨ c = ':') :
    gcalReplace (c :: rest) = gcalReplace rest := by
  rcases rest with _ | ⟨a, _ | ⟨b, _ | ⟨c2, r2⟩⟩⟩ <;>
    simp only [gcalReplace] <;> rw [if_pos h]

theorem gcalReplace_cons_of_keep (c : Char) (rest : List Char)
    (h1 : ¬(c = '-' ∨ c = ':')) (h2 : ¬(c = '.')) :
    gcalReplace (c :: rest) = c :: gcalReplace rest := by
  rcases rest with _ | ⟨a, _ | ⟨b, _ | ⟨c2, r2⟩⟩⟩ <;>
    simp only [gcalReplace] <;> rw [if_neg h1, if_neg h2]

theorem gcalReplace_cons_of_digit (c : Char) (rest : List Char)
    (h : isDigit c = true) :
    gcalReplace (c :: rest) = c :: gcalReplace rest := by
  refine gcalReplace_cons_of_keep c rest ?_ ?_
  · rintro (hc | hc) <;> subst hc <;> exact absurd h (by decide)
  · intro hc; subst hc; exact absurd h (by decide)

theorem gcalReplace_dot_digits (a b c : Char) (r : List Char)
    (ha : isDigit a = true) (hb : isDigit b = true) (hc : isDigit c = true) :
    gcalReplace ('.' :: a :: b :: c :: r) = gcalReplace r := by
  simp only [gcalReplace]
  rw [if_neg (by decide), if_pos (by decide), if_pos ⟨ha, hb, hc⟩]

theorem gcalReplace_isoOf (t : Int) :
    gcalReplace (isoOf t) = gcalCompact (msToCivil t) := by
  show gcalReplace
      (pad4 (msToCivil t).y ++ ('-' :: (pad2 (msToCivil t).mo ++ ('-' ::
        (pad2 (msToCivil t).d ++ ('T' :: (pad2 (msToCivil t).h ++ (':' ::
        (pad2 (msToCivil t).mi ++ (':' :: (pad2 (msToCivil t).s ++ ('.' ::
        (pad3 (msToCivil t).ms ++ ['Z'])))))))))))))
    = gcalCompact (msToCivil t)
  simp only [pad4, pad3, pad2, gcalCompact, List.cons_append, List.nil_append]
  rw [gcalReplace_cons_of_digit _ _ (isDigit_digitChar_mod _),
    gcalReplace_cons_of_digit _ _ (isDigit_digitChar_mod _),
    gcalReplace_cons_of_digit _ _ (isDigit_digitChar_mod _),
    gcalReplace_cons_of_digit _ _ (isDigit_digitChar_mod _),
    gcalReplace_cons_of_skip '-' _ (Or.inl rfl),
    gcalReplace_cons_of_digit _ _ (isDigit_digitChar_mod _),
    gcalReplace_cons_of_digit _ _ (isDigit_digitChar_mod _),
    gcalReplace_cons_of_skip '-' _ (Or.inl rfl),
    gcalReplace_cons_of_digit _ _ (isDigit_digitChar_mod _),
    gcalReplace_cons_of_digit _ _ (isDigit_digitChar_mod _),
    gcalReplace_cons_of_keep 'T' _ (by decide) (by decide),
    gcalReplace_cons_of_digit _ _ (isDigit_digitChar_mod _),
    gcalReplace_cons_of_digit _ _ (isDigit_digitChar_mod _),
    gcalReplace_cons_of_skip ':' _ (Or.inr rfl),
    gcalReplace_cons_of_digit _ _ (isDigit_digitChar_mod _),
    gcalReplace_cons_of_digit _ _ (isDigit_digitChar_mod _),
    gcalReplace_cons_of_skip ':' _ (Or.inr rfl),
    gcalReplace_cons_of_digit _ _ (isDigit_digitChar_mod _),
    gcalReplace_cons_of_digit _ _ (isDigit_digitChar_mod _),
    gcalReplace_dot_digits _ _ _ _ (isDigit_digitChar_mod _)
      (isDigit_digitChar_mod _) (isDigit_digitChar_mod _),
    gcalReplace_cons_of_keep 'Z' _ (by decide) (by decide)]
  rfl

theorem gcalCompact_ne_nil (c : Civil) : gcalCompact c ≠ [] := by
  simp [gcalCompact, pad4]

theorem formatToGCalDate_of_parse_none (tz : Int) (s : List Char)
    (h : parseDate tz s = none) : formatToGCalDate tz s = [] := by
  unfold formatToGCalDate
  split
  · rfl
  · rw [h]

theorem formatToGCalDate_of_parse_some (tz : Int) (s : List Char) (t : Int)
    (h : parseDate tz s = some t) : formatToGCalDate tz s = gcalReplace (isoOf t) := by
  have hne : s ≠ [] := by
    intro hnil
    subst hnil
    exact absurd h (by simp [parseDate])
  unfold formatToGCalDate
  rw [if_neg hne, h]

theorem leapBit_le (b : Bool) : leapBit b ≤ 1 := by cases b <;> simp [leapBit]

theorem monthFromDoy_spec : ∀ (leap : Bool), ∀ doy < 366,
    (doy < 365 + leapBit leap →
      1 ≤ (monthFromDoy leap doy).1 ∧ (monthFromDoy leap doy).1 ≤ 12 ∧
      1 ≤ (monthFromDoy leap doy).2 ∧
      (monthFromDoy leap doy).2 ≤ monthLen leap (monthFromDoy leap doy).1 ∧
      daysBeforeMonth leap (monthFromDoy leap doy).1 +
        ((monthFromDoy leap doy).2 - 1) = doy) := by decide

theorem monthFromDoy_recompose : ∀ (leap : Bool), ∀ m < 13, ∀ d < 32,
    (1 ≤ m ∧ 1 ≤ d ∧ d ≤ monthLen leap m →
      monthFromDoy leap (daysBeforeMonth leap m + (d - 1)) = (m, d)) := by decide

theorem daysBeforeMonth_add_len : ∀ (leap : Bool), ∀ m < 13,
    (1 ≤ m → daysBeforeMonth leap m + monthLen leap m ≤ 365 + leapBit leap) := by
  decide

theorem daysBeforeYear_decomp (a b c e : Nat) (hb : b ≤ 3) (hc : c ≤ 24) (he : e ≤ 3) :
    daysBeforeYear (400 * a + 100 * b + 4 * c + e + 1) =
      146097 * a + 36524 * b + 1461 * c + 365 * e := by
  unfold daysBeforeYear
  omega

theorem isLeap_decomp (a b c e : Nat) (hb : b ≤ 3) (hc : c ≤ 24) (he : e ≤ 3) :
    isLeap (400 * a + 100 * b + 4 * c + e + 1) = true ↔
      (e = 3 ∧ (c ≠ 24 ∨ b = 3)) := by
  simp only [isLeap, Bool.or_eq_true, Bool.and_eq_true, decide_eq_true_eq,
    bne_iff_ne, ne_eq]
  omega

theorem yearOf_doyOf_spec (n : Nat) (hn : n < 3652059) :
    1 ≤ yearOf n ∧ yearOf n ≤ 9999 ∧
    doyOf n < 365 + leapBit (isLeap (yearOf n)) ∧
    daysBeforeYear (yearOf n) + doyOf n = n := by
  have hb : q100of n ≤ 3 := by simp only [q100of]; omega
  have hc : q4of n ≤ 24 := by simp only [q4of, r2of, q100of, rOf]; omega
  have he : q1of n ≤ 3 := by simp only [q1of]; omega
  have hdbY : daysBeforeYear (yearOf n) =
      146097 * q400of n + 36524 * q100of n + 1461 * q4of n + 365 * q1of n :=
    daysBeforeYear_decomp _ _ _ _ hb hc he
  have hleapIff : isLeap (yearOf n) = true ↔
      (q1of n = 3 ∧ (q4of n ≠ 24 ∨ q100of n = 3)) :=
    isLeap_decomp _ _ _ _ hb hc he
  refine ⟨?_, ?_, ?_, ?_⟩
  · simp only [yearOf]; omega
  · simp only [yearOf, q1of, r3of, q4of, r2of, q100of, rOf, q400of]; omega
  · cases hL : isLeap (yearOf n) with
    | false =>
        have hnot : ¬(q1of n = 3 ∧ (q4of n ≠ 24 ∨ q100of n = 3)) := by
          intro hx
          rw [hleapIff.mpr hx] at hL
          cases hL
        simp only [leapBit]
        simp only [doyOf, q1of, r3of, q4of, r2of, q100of, rOf, q400of] at hnot ⊢
        omega
    | true =>
        simp only [leapBit]
        simp only [doyOf, q1of, r3of, q4of, r2of, q100of, rOf, q400of]
        omega
  · rw [hdbY]
    simp only [doyOf, q1of, r3of, q4of, r2of, q100of, rOf, q400of]
    omega

theorem dayToCivil_civilToDay (y m d : Nat) (hy1 : 1 ≤ y) (hy2 : y ≤ 9999)
    (hm1 : 1 ≤ m) (hm2 : m ≤ 12) (hd1 : 1 ≤ d) (hd2 : d ≤ daysInMonth y m) :
    dayToCivil (civilToDay y m d) = (y, m, d) := by
  have hy : y = 400 * ((y - 1) / 400) + 100 * ((y - 1) % 400 / 100) +
      4 * ((y - 1) % 400 % 100 / 4) + ((y - 1) % 400 % 100 % 4) + 1 := by omega
  have hb : (y - 1) % 400 / 100 ≤ 3 := by omega
  have hc : (y - 1) % 400 % 100 / 4 ≤ 24 := by omega
  have he : (y - 1) % 400 % 100 % 4 ≤ 3 := by omega
  have hdbY : daysBeforeYear y =
      146097 * ((y - 1) / 400) + 36524 * ((y - 1) % 400 / 100) +
      1461 * ((y - 1) % 400 % 100 / 4) + 365 * ((y - 1) % 400 % 100 % 4) := by
    have h0 := daysBeforeYear_decomp ((y - 1) / 400) ((y - 1) % 400 / 100)
      ((y - 1) % 400 % 100 / 4) ((y - 1) % 400 % 100 % 4) hb hc he
    rw [← hy] at h0
    exact h0
  have hleapIff : isLeap y = true ↔
      ((y - 1) % 400 % 100 % 4 = 3 ∧
        ((y - 1) % 400 % 100 / 4 ≠ 24 ∨ (y - 1) % 400 / 100 = 3)) := by
    have h0 := isLeap_decomp ((y - 1) / 400) ((y - 1) % 400 / 100)
      ((y - 1) % 400 % 100 / 4) ((y - 1) % 400 % 100 % 4) hb hc he
    rw [← hy] at h0
    exact h0
  have hdoy : daysBeforeMonth (isLeap y) m + (d - 1) <
      365 + leapBit (isLeap y) := by
    have := daysBeforeMonth_add_len (isLeap y) m (by omega) hm1
    simp only [daysInMonth] at hd2
    omega
  set doy := daysBeforeMonth (isLeap y) m + (d - 1) with hdoydef
  have hN : civilToDay y m d = daysBeforeYear y + doy := by
    simp only [civilToDay, hdoydef]
    omega
  have hdoy365 : doy ≤ 365 := by
    cases hL : isLeap y <;> rw [hL] at hdoy <;> simp only [leapBit] at hdoy <;> omega
  have hcorner : doy = 365 →
      (y - 1) % 400 % 100 % 4 = 3 ∧
        ((y - 1) % 400 % 100 / 4 ≠ 24 ∨ (y - 1) % 400 / 100 = 3) := by
    intro h365
    cases hL : isLeap y with
    | false =>
        rw [hL] at hdoy
        simp only [leapBit] at hdoy
        omega
    | true => exact hleapIff.mp hL
  have hNval : civilToDay y m d =
      146097 * ((y - 1) / 400) + 36524 * ((y - 1) % 400 / 100) +
      1461 * ((y - 1) % 400 % 100 / 4) + 365 * ((y - 1) % 400 % 100 % 4) + doy := by
    rw [hN, hdbY]
  have e1 : q400of (civilToDay y m d) = (y - 1) / 400 := by
    simp only [q400of, hNval]
    omega
  have er : rOf (civilToDay y m d) =
      36524 * ((y - 1) % 400 / 100) + 1461 * ((y - 1) % 400 % 100 / 4) +
        365 * ((y - 1) % 400 % 100 % 4) + doy := by
    simp only [rOf, hNval]
    omega
  have e2 : q100of (civilToDay y m d) = (y - 1) % 400 / 100 := by
    simp only [q100of, er]
    omega
  have er2 : r2of (civilToDay y m d) =
      1461 * ((y - 1) % 400 % 100 / 4) + 365 * ((y - 1) % 400 % 100 % 4) + doy := by
    simp only [r2of, er, e2]
    omega
  have e3 : q4of (civilToDay y m d) = (y - 1) % 400 % 100 / 4 := by
    simp only [q4of, er2]
    omega
  have er3 : r3of (civilToDay y m d) = 365 * ((y - 1) % 400 % 100 % 4) + doy := by
    simp only [r3of, er2]
    omega
  have e4 : q1of (civilToDay y m d) = (y - 1) % 400 % 100 % 4 := by
    simp only [q1of, er3]
    omega
  have e5 : doyOf (civilToDay y m d) = doy := by
    simp only [doyOf, er3, e4]
    omega
  have hyear : yearOf (civilToDay y m d) = y := by
    simp only [yearOf, e1, e2, e3, e4]
    omega
  have hmfd : monthFromDoy (isLeap y) doy = (m, d) := by
    have hml : d ≤ monthLen (isLeap y) m := by
      simpa [daysInMonth] using hd2
    exact monthFromDoy_recompose (isLeap y) m (by omega) d (by
      have : monthLen (isLeap y) m ≤ 31 := by
        cases hL : isLeap y <;> interval_cases m <;> simp [monthLen, leapBit]
      omega) ⟨hm1, hd1, hml⟩
  simp only [dayToCivil, hyear, e5, hmfd]

theorem daysBeforeYear_eq (y : Nat) :
    daysBeforeYear y = 146097 * ((y - 1) / 400) + 36524 * ((y - 1) % 400 / 100) +
      1461 * ((y - 1) % 400 % 100 / 4) + 365 * ((y - 1) % 400 % 100 % 4) := by
  rcases Nat.eq_zero_or_pos y with hy | hy
  · subst hy
    decide
  · have hyd : y = 400 * ((y - 1) / 400) + 100 * ((y - 1) % 400 / 100) +
        4 * ((y - 1) % 400 % 100 / 4) + (y - 1) % 400 % 100 % 4 + 1 := by omega
    have h0 := daysBeforeYear_decomp ((y - 1) / 400) ((y - 1) % 400 / 100)
      ((y - 1) % 400 % 100 / 4) ((y - 1) % 400 % 100 % 4)
      (by omega) (by omega) (by omega)
    rw [← hyd] at h0
    exact h0

theorem daysBeforeYear_le (y : Nat) (h : y ≤ 9999) :
    daysBeforeYear y ≤ 3651694 := by
  rw [daysBeforeYear_eq]
  omega

theorem civilToDay_lt (y m d : Nat) (h1 : 1 ≤ y) (h2 : y ≤ 9999)
    (h3 : 1 ≤ m) (h4 : m ≤ 12) (h5 : 1 ≤ d) (h6 : d ≤ daysInMonth y m) :
    civilToDay y m d < 3652059 := by
  have hadd := daysBeforeMonth_add_len (isLeap y) m (by omega) h3
  simp only [daysInMonth] at h6
  have hyd : y = 400 * ((y - 1) / 400) + 100 * ((y - 1) % 400 / 100) +
      4 * ((y - 1) % 400 % 100 / 4) + (y - 1) % 400 % 100 % 4 + 1 := by omega
  have hleapIff : isLeap y = true ↔
      ((y - 1) % 400 % 100 % 4 = 3 ∧
        ((y - 1) % 400 % 100 / 4 ≠ 24 ∨ (y - 1) % 400 / 100 = 3)) := by
    have h0 := isLeap_decomp ((y - 1) / 400) ((y - 1) % 400 / 100)
      ((y - 1) % 400 % 100 / 4) ((y - 1) % 400 % 100 % 4)
      (by omega) (by omega) (by omega)
    rw [← hyd] at h0
    exact h0
  cases hL : isLeap y with
  | false =>
      rw [hL] at hadd h6
      simp only [leapBit] at hadd
      rw [civilToDay, hL, daysBeforeYear_eq]
      omega
  | true =>
      have hyes := hleapIff.mp hL
      rw [hL] at hadd h6
      simp only [leapBit] at hadd
      rw [civilToDay, hL, daysBeforeYear_eq]
      omega

theorem dayToCivil_spec (n : Nat) (hn : n < 3652059) :
    1 ≤ yearOf n ∧ yearOf n ≤ 9999 ∧
    1 ≤ (dayToCivil n).2.1 ∧ (dayToCivil n).2.1 ≤ 12 ∧
    1 ≤ (dayToCivil n).2.2 ∧
    (dayToCivil n).2.2 ≤ daysInMonth (yearOf n) (dayToCivil n).2.1 ∧
    civilToDay (yearOf n) (dayToCivil n).2.1 (dayToCivil n).2.2 = n := by
  obtain ⟨hy1, hy2, hdoy, hrec⟩ := yearOf_doyOf_spec n hn
  have h366 : doyOf n < 366 := by
    have := leapBit_le (isLeap (yearOf n))
    omega
  obtain ⟨hmm1, hmm2, hdd1, hdd2, hmd⟩ :=
    monthFromDoy_spec (isLeap (yearOf n)) (doyOf n) h366 hdoy
  refine ⟨hy1, hy2, ?_, ?_, ?_, ?_, ?_⟩
  · simpa [dayToCivil] using hmm1
  · simpa [dayToCivil] using hmm2
  · simpa [dayToCivil] using hdd1
  · simpa [dayToCivil, daysInMonth] using hdd2
  · simp only [dayToCivil, civilToDay]
    omega

theorem msToCivil_spec (t : Int) (h0 : 0 ≤ t) (h1 : t < 315537897600000) :
    validCivil (msToCivil t) ∧ civilToMs (msToCivil t) = t := by
  obtain ⟨n, rfl⟩ : ∃ n : Nat, t = (n : Int) := ⟨t.toNat, by omega⟩
  have hn : n < 315537897600000 := by omega
  have hnn : (Int.toNat (n : Int)) = n := by omega
  have hday : n / 86400000 < 3652059 := by omega
  obtain ⟨hy1, hy2, hm1, hm2, hd1, hd2, hrec⟩ := dayToCivil_spec (n / 86400000) hday
  have hciv : msToCivil (n : Int) =
      ⟨yearOf (n / 86400000), (dayToCivil (n / 86400000)).2.1,
       (dayToCivil (n / 86400000)).2.2,
       n % 86400000 / 3600000, n % 86400000 % 3600000 / 60000,
       n % 86400000 % 60000 / 1000, n % 86400000 % 1000⟩ := by
    simp only [msToCivil, hnn, dayToCivil]
  rw [hciv]
  constructor
  · simp only [validCivil]
    exact ⟨hy1, hy2, hm1, hm2, hd1, hd2, by omega, by omega, by omega, by omega⟩
  · simp only [civilToMs, civilToMsNat, hrec]
    omega

theorem msToCivil_civilToMs (c : Civil) (hv : validCivil c) :
    msToCivil (civilToMs c) = c := by
  obtain ⟨cy, cmo, cd, ch, cmi, cs, cms⟩ := c
  obtain ⟨h1, h2, h3, h4, h5, h6, h7, h8, h9, h10⟩ := hv
  simp only at h1 h2 h3 h4 h5 h6 h7 h8 h9 h10
  have hdayv : civilToDay cy cmo cd < 3652059 :=
    civilToDay_lt cy cmo cd h1 h2 h3 h4 h5 h6
  have hfwd := dayToCivil_civilToDay cy cmo cd h1 h2 h3 h4 h5 h6
  have htod : 3600000 * ch + 60000 * cmi + 1000 * cs + cms < 86400000 := by omega
  have hms : civilToMsNat ⟨cy, cmo, cd, ch, cmi, cs, cms⟩ =
      86400000 * civilToDay cy cmo cd +
        (3600000 * ch + 60000 * cmi + 1000 * cs + cms) := by
    simp only [civilToMsNat]
    omega
  have htn : Int.toNat (civilToMs ⟨cy, cmo, cd, ch, cmi, cs, cms⟩) =
      86400000 * civilToDay cy cmo cd +
        (3600000 * ch + 60000 * cmi + 1000 * cs + cms) := by
    simp only [civilToMs, hms]
    omega
  have hdayq : (86400000 * civilToDay cy cmo cd +
      (3600000 * ch + 60000 * cmi + 1000 * cs + cms)) / 86400000 =
      civilToDay cy cmo cd := by omega
  have hrem : (86400000 * civilToDay cy cmo cd +
      (3600000 * ch + 60000 * cmi + 1000 * cs + cms)) % 86400000 =
      3600000 * ch + 60000 * cmi + 1000 * cs + cms := by omega
  simp only [msToCivil, htn, hdayq, hrem]
  rw [show (dayToCivil (civilToDay cy cmo cd)) = (cy, cmo, cd) from hfwd]
  simp only [Civil.mk.injEq]
  refine ⟨trivial, trivial, trivial, by omega, by omega, by omega, by omega⟩

/-- C3 counterexample: for a candidate with a present, valid recurrence
rule the encoded URL is character-for-character the URL of the same
candidate without the rule, and the parameter list has no recurrence
parameter — refuting the claim that a recurrence query parameter is
appended. -/
theorem C3_no_recurrence_param_counterexample :
    exRecEvent.recurrence ≠ [] ∧
    findFreq exRecEvent.recurrence = some RecUnit.WEEKLY ∧
    intervalOfRule exRecEvent.recurrence = some 2 ∧
    generateGoogleCalendarUrl 0 exRecEvent =
      generateGoogleCalendarUrl 0 { exRecEvent with recurrence := [] } ∧
    (genParams 0 exRecEvent).map Prod.fst =
      [S ("action"), S ("text"), S ("details"), S ("location"), S ("dates")] :=
  ⟨by decide, rfl, rfl, rfl, rfl⟩

/-- C3 (amended): the encoder ignores the recurrence field entirely — the
generated URL never carries a recurrence parameter and does not depend on
the rule string at all. -/
theorem C3_recurrence_ignored (tz : Int) (e : EventDetails) (r : List Char) :
    generateGoogleCalendarUrl tz { e with recurrence := r } =
      generateGoogleCalendarUrl tz e := rfl

/-- C5: when the start is parseable, a missing or unparseable end makes
the `dates` parameter carry the start stamp and the stamp of the instant
exactly one hour (3600000 ms) later, both in compact UTC form; and when
the start is empty or unparseable no `dates` parameter is emitted at
all. -/
theorem C5_dates_synthesis (tz : Int) (e : EventDetails) :
    (∀ t : Int, parseDate tz e.startDateTime = some t →
        parseDate tz e.endDateTime = none →
        lookupParam (genParams tz e) (S ("dates")) =
          some (gcalCompact (msToCivil t) ++
            ('/' :: gcalCompact (msToCivil (t + 3600000))))) ∧
    (parseDate tz e.startDateTime = none →
        lookupParam (genParams tz e) (S ("dates")) = none) := by
  constructor
  · intro t hs he
    have hstart := formatToGCalDate_of_parse_some tz e.startDateTime t hs
    have hend := formatToGCalDate_of_parse_none tz e.endDateTime he
    have hsne : gcalReplace (isoOf t) ≠ [] := by
      rw [gcalReplace_isoOf]
      exact gcalCompact_ne_nil _
    have hene : gcalReplace (isoOf (t + 3600000)) ≠ [] := by
      rw [gcalReplace_isoOf]
      exact gcalCompact_ne_nil _
    have hE : gcalEndStamp tz e = gcalReplace (isoOf (t + 3600000)) := by
      unfold gcalEndStamp
      rw [hstart, hend, hs, if_pos ⟨hsne, rfl⟩]
    have hG : genParams tz e =
        gcalBaseParams e ++
          [(S ("dates"),
            gcalReplace (isoOf t) ++ ('/' :: gcalReplace (isoOf (t + 3600000))))] := by
      unfold genParams
      rw [hstart, hE, if_pos ⟨hsne, hene⟩]
    rw [hG, gcalReplace_isoOf, gcalReplace_isoOf]
    rfl
  · intro hs
    have hstart := formatToGCalDate_of_parse_none tz e.startDateTime hs
    have hG : genParams tz e = gcalBaseParams e := by
      unfold genParams
      rw [hstart]
      exact if_neg (by simp)
    rw [hG]
    rfl

theorem digitVal_digitChar_mod (k : Nat) : digitVal (digitChar (k % 10)) = k % 10 :=
  digitVal_digitChar (Nat.mod_lt _ (by omega))

theorem isoOf_take16 (t : Int) : (isoOf t).take 16 = iso16 (msToCivil t) := by
  simp only [isoOf, iso16, pad4, pad3, pad2]
  rfl

theorem twoDig_pad (k : Nat) (h : k ≤ 99) :
    twoDig (digitChar (k / 10 % 10)) (digitChar (k % 10)) = k := by
  simp only [twoDig, digitVal_digitChar_mod]
  omega

theorem fourDig_pad (k : Nat) (h : k ≤ 9999) :
    fourDig (digitChar (k / 1000 % 10)) (digitChar (k / 100 % 10))
      (digitChar (k / 10 % 10)) (digitChar (k % 10)) = k := by
  simp only [fourDig, digitVal_digitChar_mod]
  omega

theorem monthLen_le31 (leap : Bool) (m : Nat) : monthLen leap m ≤ 31 := by
  unfold monthLen
  split <;> first
    | omega
    | (cases leap <;> simp [leapBit])

theorem daysInMonth_le31 (y m : Nat) : daysInMonth y m ≤ 31 :=
  monthLen_le31 (isLeap y) m

theorem parseDate_isoOf_civil (tz : Int) (c : Civil) (hv : validCivil c)
    (h98 : c.y ≤ 9998) :
    parseDate tz (isoOf (civilToMs c)) = some (civilToMs c) := by
  have hmc : msToCivil (civilToMs c) = c := msToCivil_civilToMs c hv
  obtain ⟨cy, cmo, cd, ch, cmi, cs, cms⟩ := c
  obtain ⟨h1, h2, h3, h4, h5, h6, h7, h8, h9, h10⟩ := hv
  simp only at h1 h2 h3 h4 h5 h6 h7 h8 h9 h10 h98
  rw [show isoOf (civilToMs ⟨cy, cmo, cd, ch, cmi, cs, cms⟩) =
      pad4 cy ++ ('-' :: (pad2 cmo ++ ('-' :: (pad2 cd ++
        ('T' :: (pad2 ch ++ (':' :: (pad2 cmi ++
        (':' :: (pad2 cs ++ ('.' :: (pad3 cms ++ ['Z'])))))))))))) from by
    simp only [isoOf, hmc]]
  simp only [pad4, pad3, pad2, List.cons_append, List.nil_append]
  unfold parseDate
  simp only [allDigits, List.all_cons, List.all_nil, isDigit_digitChar_mod,
    Bool.and_self, Bool.and_true, if_true]
  have hd31 : cd ≤ 31 := le_trans h6 (daysInMonth_le31 cy cmo)
  rw [fourDig_pad cy (by omega), twoDig_pad cmo (by omega), twoDig_pad cd (by omega),
    twoDig_pad ch (by omega), twoDig_pad cmi (by omega), twoDig_pad cs (by omega)]
  rw [if_pos ⟨h1, h98, h3, h4, h5, h6⟩]
  simp only [digitVal_digitChar_mod]
  rw [show 100 * (cms / 100 % 10) + 10 * (cms / 10 % 10) + cms % 10 = cms from by
    omega]
  rw [if_pos ⟨h7, h8⟩, if_pos h9]

theorem parseDate_iso16_civil (tz : Int) (c : Civil) (hv : validCivil c)
    (h98 : c.y ≤ 9998) :
    parseDate tz (iso16 c) =
      some (civilToMs ⟨c.y, c.mo, c.d, c.h, c.mi, 0, 0⟩ + tz * 60000) := by
  obtain ⟨cy, cmo, cd, ch, cmi, cs, cms⟩ := c
  obtain ⟨h1, h2, h3, h4, h5, h6, h7, h8, h9, h10⟩ := hv
  simp only at h1 h2 h3 h4 h5 h6 h7 h8 h9 h10 h98
  simp only [iso16, pad4, pad2, List.cons_append, List.nil_append]
  unfold parseDate
  simp only [allDigits, List.all_cons, List.all_nil, isDigit_digitChar_mod,
    Bool.and_self, Bool.and_true, if_true]
  have hd31 : cd ≤ 31 := le_trans h6 (daysInMonth_le31 cy cmo)
  rw [fourDig_pad cy (by omega), twoDig_pad cmo (by omega), twoDig_pad cd (by omega),
    twoDig_pad ch (by omega), twoDig_pad cmi (by omega)]
  rw [if_pos ⟨h1, h98, h3, h4, h5, h6⟩, if_pos ⟨h7, h8⟩]

theorem msToCivil_year_le (u : Int) (h0 : 0 ≤ u) (hu : u < 315506361600000) :
    (msToCivil u).y ≤ 9998 := by
  obtain ⟨hv, hrt⟩ := msToCivil_spec u h0 (by omega)
  obtain ⟨v1, v2, v3, v4, v5, v6, v7, v8, v9, v10⟩ := hv
  by_contra hgt
  have h9999 : (msToCivil u).y = 9999 := by omega
  have hday : 3651694 ≤ civilToDay (msToCivil u).y (msToCivil u).mo (msToCivil u).d := by
    have hdb : daysBeforeYear 9999 = 3651694 := by decide
    simp only [civilToDay, h9999, hdb]
    omega
  have hms : civilToMs (msToCivil u) =
      ((86400000 * civilToDay (msToCivil u).y (msToCivil u).mo (msToCivil u).d +
        3600000 * (msToCivil u).h + 60000 * (msToCivil u).mi +
        1000 * (msToCivil u).s + (msToCivil u).ms : Nat) : Int) := by
    simp only [civilToMs, civilToMsNat]
  rw [hms] at hrt
  omega

theorem parseDate_isoOf_range (tz u : Int) (h0 : 0 ≤ u) (hu : u < 315506361600000) :
    parseDate tz (isoOf u) = some u := by
  obtain ⟨hv, hrt⟩ := msToCivil_spec u h0 (by omega)
  have h98 := msToCivil_year_le u h0 hu
  have h := parseDate_isoOf_civil tz (msToCivil u) hv h98
  rw [hrt] at h
  exact h

theorem parseDate_nil (tz : Int) : parseDate tz ([] : List Char) = none := rfl

theorem isoOf_ne_nil (u : Int) : isoOf u ≠ [] := by
  simp [isoOf, pad4]

theorem iso16_ne_nil (c : Civil) : iso16 c ≠ [] := by
  simp [iso16, pad4]

/-- C5 witness: at offset 300 minutes the start
`2025-06-02T09:00:00` (local) is instant 63884469600000, and the `dates`
parameter pairs it with the stamp one hour later; the unparseable-start
candidate gets no `dates` parameter. -/
theorem C5_dates_synthesis_witness :
    lookupParam (genParams 300 exC5Event) (S ("dates")) =
      some (gcalCompact (msToCivil 63884469600000) ++
        ('/' :: gcalCompact (msToCivil (63884469600000 + 3600000)))) ∧
    lookupParam (genParams 300 exC5NoStart) (S ("dates")) = none :=
  ⟨(C5_dates_synthesis 300 exC5Event).1 63884469600000 rfl rfl,
   (C5_dates_synthesis 300 exC5NoStart).2 rfl⟩

/-- C8: for every non-empty startDateTime string parseable in the
modelled ISO fragment — with the viewer's offset bounded by a day and the
instant inside the supported year range — the local-input rendering is
idempotent after the first normalization round-trip at minute precision:
`toInputDateTime (fromInputDateTime (toInputDateTime x)) = toInputDateTime x`. -/
theorem C8_local_input_roundtrip (tz : Int) (x : List Char) (t : Int)
    (hx : parseDate tz x = some t)
    (htz : tz.natAbs ≤ 1440)
    (hlo : 86400000 ≤ t) (hhi : t ≤ 315506188800000) :
    toInputDateTime tz (fromInputDateTime tz (toInputDateTime tz x)) =
      toInputDateTime tz x := by
  have hxne : x ≠ [] := by
    intro hn
    rw [hn, parseDate_nil] at hx
    cases hx
  have h0 : (0 : Int) ≤ t - tz * 60000 := by omega
  have h1 : t - tz * 60000 < 315506361600000 := by omega
  obtain ⟨hvc, hrt⟩ := msToCivil_spec (t - tz * 60000) h0 (by omega)
  have hy98 : (msToCivil (t - tz * 60000)).y ≤ 9998 :=
    msToCivil_year_le (t - tz * 60000) h0 h1
  have hTI : toInputDateTime tz x = iso16 (msToCivil (t - tz * 60000)) := by
    unfold toInputDateTime
    rw [if_neg hxne, hx]
    show (isoOf (t - tz * 60000)).take 16 = _
    exact isoOf_take16 _
  have hP2 := parseDate_iso16_civil tz (msToCivil (t - tz * 60000)) hvc hy98
  generalize hg : msToCivil (t - tz * 60000) = c0 at hvc hrt hy98 hTI hP2
  obtain ⟨cy, cmo, cd, ch, cmi, cs, cms⟩ := c0
  obtain ⟨v1, v2, v3, v4, v5, v6, v7, v8, v9, v10⟩ := hvc
  simp only at v1 v2 v3 v4 v5 v6 v7 v8 v9 v10 hy98 hP2 hTI hrt
  have hFI : fromInputDateTime tz (toInputDateTime tz x) =
      isoOf (civilToMs ⟨cy, cmo, cd, ch, cmi, 0, 0⟩ + tz * 60000) := by
    rw [hTI]
    unfold fromInputDateTime
    rw [if_neg (iso16_ne_nil _), hP2]
  have htrv : validCivil ⟨cy, cmo, cd, ch, cmi, 0, 0⟩ := by
    simp only [validCivil]
    exact ⟨v1, v2, v3, v4, v5, v6, v7, v8, by omega, by omega⟩
  have hdiff : civilToMs ⟨cy, cmo, cd, ch, cmi, cs, cms⟩ -
      civilToMs ⟨cy, cmo, cd, ch, cmi, 0, 0⟩ =
      1000 * (cs : Int) + (cms : Int) := by
    simp only [civilToMs, civilToMsNat]
    push_cast
    ring
  have htr0 : (0 : Int) ≤ civilToMs ⟨cy, cmo, cd, ch, cmi, 0, 0⟩ := by
    simp only [civilToMs]
    omega
  have htr2 : 0 ≤ civilToMs ⟨cy, cmo, cd, ch, cmi, 0, 0⟩ + tz * 60000 := by omega
  have hP1 : parseDate tz
      (isoOf (civilToMs ⟨cy, cmo, cd, ch, cmi, 0, 0⟩ + tz * 60000)) =
      some (civilToMs ⟨cy, cmo, cd, ch, cmi, 0, 0⟩ + tz * 60000) :=
    parseDate_isoOf_range tz _ htr2 (by omega)
  have hTO : toInputDateTime tz
      (isoOf (civilToMs ⟨cy, cmo, cd, ch, cmi, 0, 0⟩ + tz * 60000)) =
      iso16 (msToCivil (civilToMs ⟨cy, cmo, cd, ch, cmi, 0, 0⟩ + tz * 60000 -
        tz * 60000)) := by
    unfold toInputDateTime
    rw [if_neg (isoOf_ne_nil _), hP1]
    show (isoOf _).take 16 = _
    exact isoOf_take16 _
  have hcancel : civilToMs ⟨cy, cmo, cd, ch, cmi, 0, 0⟩ + tz * 60000 - tz * 60000 =
      civilToMs ⟨cy, cmo, cd, ch, cmi, 0, 0⟩ := by ring
  rw [hFI, hTO, hcancel, msToCivil_civilToMs _ htrv, hTI]
  rfl

/-- C8 witness: the round trip at offset 300 on `2025-06-02T09:00:00`. -/
theorem C8_local_input_roundtrip_witness :
    parseDate 300 (S ("2025-06-02T09:00:00")) = some 63884469600000 ∧
    toInputDateTime 300 (fromInputDateTime 300
        (toInputDateTime 300 (S ("2025-06-02T09:00:00")))) =
      toInputDateTime 300 (S ("2025-06-02T09:00:00")) :=
  ⟨rfl,
   C8_local_input_roundtrip 300 (S ("2025-06-02T09:00:00")) 63884469600000
     rfl (by decide) (by decide) (by decide)⟩

end SnapEvent
